import Mathlib

/-!
# Content store of the tiedot HTTP API (`httpapi/document.go`)

A shallow embedding of the content-store part of `document.go`: the path
resolver `getPathToID`, the file operations `SaveDocument`, `DeleteDocument`,
`CreatePreview`, `fileExists`, and the handlers `Insert`, `Get`, `Update`,
`CSGet`, with the library functions they call (`strconv.Itoa`, `strconv.Atoi`,
`filepath.Ext`, `filepath.Match`, `filepath.Glob`, the `os` file operations).

Conventions of the embedding

* A Go `string` that is text (a path, a parameter, a JSON text) is a
  `List Char`; file contents and response bodies are lists of bytes, a text
  being written as its UTF-8 bytes.  The string operations of the file
  (concatenation, comparison, the slices of a decimal text, the scans of
  `filepath.Ext`, `filepath.Split` and `filepath.Match`) act on whole
  characters.
* A Go `int` is an `Int`; `strconv.Atoi` checks the 64-bit range.
* A run that does not return (a runtime panic, `panic(err)`, `check(err)`,
  `log.Fatal`) is `Except.error`; the file system it leaves is not described.
* The file system is explicit state: regular files with their content and
  directories, keyed by the path as the program spells it (paths are not
  normalised; permissions and links are not modelled).  `/` is the separator
  and the backslash is the escape character of `filepath.Match`.  `os.Stat`
  tells a name that does not exist from a name it cannot resolve (a parent is
  a regular file, or the name is refused for a NUL byte or its length).
* What lies outside the file is a parameter: `Require` of the package, the
  collection engine, the JSON and JPEG codecs (`World`).
-/

namespace Tiedot

/-- A Go string. -/
abbrev GoString := List Char

/-- Ways a Go run stops without returning. -/
inductive Crash where
  /-- A runtime panic, `panic(err)` or `check(err)`. -/
  | panic
  /-- The process exit of `log.Fatal`. -/
  | fatal
  deriving DecidableEq, Repr

instance instDecidableEqExcept {ε α : Type} [DecidableEq ε] [DecidableEq α] :
    DecidableEq (Except ε α)
  | Except.ok a, Except.ok b =>
    if h : a = b then isTrue (by rw [h]) else isFalse (fun h2 => h (Except.ok.inj h2))
  | Except.error a, Except.error b =>
    if h : a = b then isTrue (by rw [h]) else isFalse (fun h2 => h (Except.error.inj h2))
  | Except.ok _, Except.error _ => isFalse (fun h => Except.noConfusion h)
  | Except.error _, Except.ok _ => isFalse (fun h => Except.noConfusion h)

/-! ## strconv -/

/-- The character of the decimal digit `d`. -/
def digitChar (d : Nat) : Char := Char.ofNat (48 + d)

/-- Decimal digits of `n`, most significant first, pushed in front of `acc`;
`fuel` bounds the number of digits. -/
def natDigits : Nat → Nat → GoString → GoString
  | 0, _, acc => acc
  | fuel + 1, n, acc =>
    if n < 10 then digitChar n :: acc
    else natDigits fuel (n / 10) (digitChar (n % 10) :: acc)

/-- The base-10 text of a natural number (`"0"` for zero, no leading zero). -/
def formatNat (n : Nat) : GoString := natDigits (n + 1) n []

/-- Go `strconv.Itoa`: the base-10 text of an integer, with `-` for negatives. -/
def Itoa (i : Int) : GoString :=
  match i with
  | Int.ofNat n => formatNat n
  | Int.negSucc n => '-' :: formatNat (n + 1)

/-- Largest value of a 64-bit Go `int`. -/
def maxInt : Int := 2 ^ 63 - 1

/-- Smallest value of a 64-bit Go `int`. -/
def minInt : Int := -(2 ^ 63)

/-- The digit loop of `strconv.Atoi`: every byte must be `0`..`9`. -/
def parseDigits : GoString → Nat → Option Nat
  | [], v => some v
  | c :: cs, v =>
    if 48 ≤ c.toNat ∧ c.toNat ≤ 57 then parseDigits cs (v * 10 + (c.toNat - 48))
    else none

/-- Go `strconv.Atoi`: an optional sign followed by at least one decimal digit,
the value within the range of `int`; `none` is the syntax or range error. -/
def Atoi (s : GoString) : Option Int :=
  match s with
  | [] => none
  | '-' :: rest =>
    if rest = [] then none
    else match parseDigits rest 0 with
      | some v => if -(v : Int) < minInt then none else some (-(v : Int))
      | none => none
  | '+' :: rest =>
    if rest = [] then none
    else match parseDigits rest 0 with
      | some v => if maxInt < (v : Int) then none else some (v : Int)
      | none => none
  | c :: rest =>
    match parseDigits (c :: rest) 0 with
    | some v => if maxInt < (v : Int) then none else some (v : Int)
    | none => none

/-! ## String slices and the path resolver -/

/-- The Go slice expression `s[lo:hi]` on a string: a runtime panic unless
`lo ≤ hi ≤ len(s)`. -/
def slice (s : GoString) (lo hi : Nat) : Except Crash GoString :=
  if lo ≤ hi ∧ hi ≤ s.length then Except.ok ((s.drop lo).take (hi - lo))
  else Except.error Crash.panic

/-- The local `path` of `SaveDocument`:
`CSDir + "/" + col + "/" + Itoa(id)[0:2] + "/" + Itoa(id)[2:4]`. -/
def shardPath (CSDir : GoString) (id : Int) (col : GoString) : Except Crash GoString := do
  let a ← slice (Itoa id) 0 2
  let b ← slice (Itoa id) 2 4
  pure (CSDir ++ "/".toList ++ col ++ "/".toList ++ a ++ "/".toList ++ b)

/-- Source function `getPathToID`: the shard path followed by `"/"` and the
decimal id. -/
def getPathToID (CSDir : GoString) (id : Int) (col : GoString) : Except Crash GoString := do
  let a ← slice (Itoa id) 0 2
  let b ← slice (Itoa id) 2 4
  pure (CSDir ++ "/".toList ++ col ++ "/".toList ++ a ++ "/".toList ++ b ++ "/".toList ++ Itoa id)


/-! ## Bytes, responses -/

/-- File contents and response bodies are byte sequences. -/
abbrev Bytes := List UInt8

/-- The bytes of a Go string (its UTF-8 encoding). -/
def utf8 (s : GoString) : Bytes := s.flatMap String.utf8EncodeChar

/-- The builtin `len` on a string: its number of bytes. -/
def len (s : GoString) : Nat := (utf8 s).length

/-- What a handler has sent through its `http.ResponseWriter`: the header map,
the status (200 unless `WriteHeader` or `http.Error` set another one) and the
body written so far. -/
structure Response where
  headers : List (GoString × GoString)
  status : Nat
  body : Bytes
  deriving DecidableEq, Repr

/-- A writer nothing was written to. -/
def Response.empty : Response := { headers := [], status := 200, body := [] }

/-- Go `w.Header().Set(key, value)`. -/
def Response.setHeader (w : Response) (key value : GoString) : Response :=
  { w with headers := (key, value) :: w.headers.filter (fun kv => kv.1 ≠ key) }

/-- Go `w.Header().Get(key)`. -/
def Response.header (w : Response) (key : GoString) : Option GoString :=
  w.headers.lookup key

/-- Go `w.Write(b)`. -/
def Response.write (w : Response) (b : Bytes) : Response :=
  { w with body := w.body ++ b }

/-- Go `http.Error(w, msg, code)`: plain-text content type, the status `code`, and
the message followed by a newline as body. -/
def httpError (w : Response) (msg : GoString) (code : Nat) : Response :=
  let w1 := w.setHeader "Content-Type".toList "text/plain; charset=utf-8".toList
  let w2 := w1.setHeader "X-Content-Type-Options".toList "nosniff".toList
  { w2 with status := code, body := w2.body ++ utf8 (msg ++ "\n".toList) }

/-! ## The file system -/

/-- The state of the file system: regular files with their content, and
directories.  The first entry of a path in `files` is the file. -/
structure FS where
  files : List (GoString × Bytes)
  dirs : List GoString
  deriving DecidableEq, Repr

/-- The empty file system. -/
def FS.empty : FS := { files := [], dirs := [] }

/-- Content of the regular file at `p`, if there is one. -/
def FS.readFile (fs : FS) (p : GoString) : Option Bytes := fs.files.lookup p

/-- Whether `p` is a regular file. -/
def FS.isFile (fs : FS) (p : GoString) : Bool := (fs.files.lookup p).isSome

/-- Whether `p` is a directory; the root and the working directory always are. -/
def FS.isDir (fs : FS) (p : GoString) : Bool :=
  p = "/".toList || p = ".".toList || fs.dirs.contains p

/-- The state with the content of `p` replaced by `c`. -/
def FS.put (fs : FS) (p : GoString) (c : Bytes) : FS :=
  { fs with files := (p, c) :: fs.files.filter (fun e => e.1 ≠ p) }

/-- Go `filepath.Split`: the text up to and including the last `/`, and the rest. -/
def Split (path : GoString) : GoString × GoString :=
  ((path.reverse.dropWhile (fun c => c ≠ '/')).reverse,
   (path.reverse.takeWhile (fun c => c ≠ '/')).reverse)

/-- Go `cleanGlobPath` of `path/filepath`: the directory of `Split` without its
trailing separator. -/
def cleanGlobPath (path : GoString) : GoString :=
  if path = [] then ".".toList
  else if path = "/".toList then path
  else path.dropLast

/-- The directory an entry `p` lives in. -/
def parentDir (p : GoString) : GoString := cleanGlobPath (Split p).1

/-- The path itself and its parents: the prefixes that end before a `/`. -/
def ancestors (p : GoString) : List GoString :=
  ((List.range p.length).filterMap fun i =>
    if 0 < i ∧ p.get? i = some '/' then some (p.take i) else none) ++ [p]

/-- A name the operating system refuses: it holds a NUL byte (`EINVAL`), is
4096 bytes or longer, or has an element of more than 255 bytes
(`ENAMETOOLONG`, with the limits of Linux). -/
def badName (p : GoString) : Bool :=
  p.contains (Char.ofNat 0) || decide (4096 ≤ len p) ||
    (List.splitOn '/' p).any fun c => decide (255 < len c)

/-- What `os.Stat` reports. -/
inductive StatResult where
  /-- A regular file. -/
  | file
  /-- A directory. -/
  | dir
  /-- The error for which `os.IsNotExist` holds. -/
  | notExist
  /-- Another error: the name is refused, or a parent of the name is a regular
  file (`ENOTDIR`). -/
  | otherError
  deriving DecidableEq, Repr

/-- Go `os.Stat(p)`: the kind of the entry `p`; when there is no such entry, an
error, which is the not-exist error unless the name is refused or one of its
parents is a regular file. -/
def Stat (fs : FS) (p : GoString) : StatResult :=
  if fs.isDir p then StatResult.dir
  else if fs.isFile p then StatResult.file
  else if badName p || (ancestors p).dropLast.any fs.isFile then StatResult.otherError
  else StatResult.notExist

/-- Go `os.Stat(p)` followed by `os.IsNotExist(err)`. -/
def statNotExist (fs : FS) (p : GoString) : Bool := decide (Stat fs p = StatResult.notExist)

/-- Go `os.MkdirAll(p, 0777)`: creates `p` and every missing parent; fails when
the name is refused or one of them is a regular file. -/
def MkdirAll (fs : FS) (p : GoString) : Option FS :=
  if badName p || (ancestors p).any fs.isFile then none
  else some { fs with dirs := (ancestors p).filter (fun d => !fs.dirs.contains d) ++ fs.dirs }

/-- Go `os.Create(p)` (`O_RDWR|O_CREATE|O_TRUNC`): fails when the name is
refused, `p` is a directory or its parent is not one; otherwise `p` is an empty
regular file. -/
def Create (fs : FS) (p : GoString) : Option FS :=
  if badName p || fs.isDir p || !fs.isDir (parentDir p) then none
  else some (fs.put p [])

/-- Go `os.OpenFile(p, O_WRONLY|O_CREATE, 0666)`: as `Create`, but an existing
file keeps its content. -/
def OpenFile (fs : FS) (p : GoString) : Option FS :=
  if badName p || fs.isDir p || !fs.isDir (parentDir p) then none
  else if fs.isFile p then some fs
  else some (fs.put p [])

/-- Writing `data` at offset 0 of the open file `p`: the bytes replace the start
of the content and what lies beyond them stays. -/
def writeAt0 (fs : FS) (p : GoString) (data : Bytes) : FS :=
  fs.put p (data ++ ((fs.readFile p).getD []).drop data.length)

/-- Source function `fileExists`: `false` when `os.Stat` reports that the name
does not exist, otherwise `!info.IsDir()`; on another error of `os.Stat` the
`info` is nil and the call panics. -/
def fileExists (fs : FS) (filename : GoString) : Except Crash Bool :=
  match Stat fs filename with
  | StatResult.notExist => Except.ok false
  | StatResult.otherError => Except.error Crash.panic
  | StatResult.dir => Except.ok false
  | StatResult.file => Except.ok true

/-- Source function `SaveDocument`: make the shard directory when `os.Stat`
does not find it
(the result of `MkdirAll` is dropped), create the file, write the content;
`check` panics on a failed `os.Create`. -/
def SaveDocument (CSDir : GoString) (fs : FS) (id : Int) (col ext content : GoString) :
    Except Crash FS := do
  let path ← shardPath CSDir id col
  let fs1 := if statNotExist fs path then (MkdirAll fs path).getD fs else fs
  let p ← getPathToID CSDir id col
  match Create fs1 (p ++ ext) with
  | none => Except.error Crash.panic
  | some fs2 => pure (writeAt0 fs2 (p ++ ext) (utf8 content))

/-! ## Requests and the retrieval handlers -/

/-- The file part of a multipart form: the fields of its `FileHeader` that the
handlers read, and the content behind the `multipart.File`.  `onDisk` tells
whether the part was spooled to a temporary file, the one case in which
`Close` makes later reads fail. -/
structure Upload where
  Filename : GoString
  Size : Int
  ContentType : List GoString
  data : Bytes
  onDisk : Bool
  deriving DecidableEq, Repr

/-- An HTTP request: its form values, its body text and its `file` part. -/
structure Request where
  form : List (GoString × GoString)
  body : GoString
  file : Option Upload
  deriving DecidableEq, Repr

/-- Go `r.FormValue(key)`: the first value of the key, empty when absent. -/
def Request.FormValue (r : Request) (key : GoString) : GoString :=
  (r.form.lookup key).getD []

/-- The helper `Require(w, r, key, &val)` lives in another file of the package.
It is a parameter: given the writer and the request it either yields the value
of the parameter or the writer after it has reported the missing parameter (the
handler then returns). -/
abbrev RequireFn := Response → Request → GoString → Except Response GoString

/-- The headers `CSGet` starts with. -/
def commonHeaders (w : Response) : Response :=
  (w.setHeader "Cache-Control".toList "must-revalidate".toList
    |>.setHeader "Access-Control-Allow-Origin".toList "*".toList
    |>.setHeader "Access-Control-Allow-Methods".toList "POST, GET, PUT, OPTIONS".toList)

/-- The content type `CSGet` sets from the type selector. -/
def typeHeader (w : Response) (ftype : GoString) : Response :=
  if ftype = "json".toList ∨ ftype = "meta".toList then
    w.setHeader "Content-Type".toList "application/json".toList
  else if ftype = "jpg".toList ∨ ftype = "preview.jpg".toList then
    w.setHeader "Content-Type".toList "image/jpeg".toList
  else w

/-- Source function `CSGet`: retrieve a content-store file by id, collection and type. -/
def CSGet (Require : RequireFn) (CSDir : GoString) (fs : FS) (r : Request) :
    Except Crash Response :=
  let w := commonHeaders Response.empty
  match Require w r "id".toList with
  | Except.error w1 => Except.ok w1
  | Except.ok id =>
  match Require w r "col".toList with
  | Except.error w1 => Except.ok w1
  | Except.ok col =>
  if len id < 4 then Except.ok w
  else
  match Require w r "type".toList with
  | Except.error w1 => Except.ok w1
  | Except.ok ftype =>
  let w2 := typeHeader w ftype
  match Atoi id with
  | none => Except.error Crash.panic
  | some docID =>
  match getPathToID CSDir docID col with
  | Except.error e => Except.error e
  | Except.ok p =>
  match fileExists fs (p ++ ".".toList ++ ftype) with
  | Except.error e => Except.error e
  | Except.ok false =>
    Except.ok (httpError w2 ("File for id '".toList ++ id ++ "' does not exist".toList) 400)
  | Except.ok true =>
    match fs.readFile (p ++ ".".toList ++ ftype) with
    | none => Except.error Crash.panic
    | some doc => Except.ok (w2.write doc)

/-- The collection engine as the handlers use it: `HttpDB.Use(col)` yields a
collection or nothing; a collection inserts, reads and updates documents.  An
error is carried as its message. -/
structure Collection (Doc : Type) where
  Insert : Doc → Except GoString Int
  Read : Int → Option Doc
  Update : Int → Doc → Option GoString

/-- The `Filemeta` record. -/
structure Filemeta where
  Id : Int
  Filename : GoString
  Size : Int
  Filetype : GoString
  deriving DecidableEq, Repr

/-- The packages outside this file that the handlers call: `Doc` is a decoded
JSON document, `Img` a decoded image. -/
structure World (Doc Img : Type) where
  /-- The helper `Require` of the package. -/
  Require : RequireFn
  /-- Go `HttpDB.Use`. -/
  Use : GoString → Option (Collection Doc)
  /-- Go `json.Unmarshal` into a map; `none` is its error. -/
  unmarshal : GoString → Option Doc
  /-- Go `json.Marshal` of a document; the error is carried as its message. -/
  marshal : Doc → Except GoString GoString
  /-- Go `json.Marshal` of a `Filemeta`; `none` is its error. -/
  marshalMeta : Filemeta → Option GoString
  /-- Go `jpeg.Decode` on the bytes the reader can still deliver: the image and the
  number of bytes it read from the reader; `none` is its error. -/
  jpegDecode : Bytes → Option (Img × Nat)
  /-- Go `resize.Resize(width, height, img, resize.Lanczos3)`. -/
  resize : Nat → Nat → Img → Img
  /-- The bytes `jpeg.Encode(out, m, nil)` writes. -/
  jpegEncode : Img → Bytes

/-- The headers `Get` starts with. -/
def jsonHeaders (w : Response) : Response :=
  (w.setHeader "Cache-Control".toList "must-revalidate".toList
    |>.setHeader "Content-Type".toList "application/json".toList
    |>.setHeader "Access-Control-Allow-Origin".toList "*".toList
    |>.setHeader "Access-Control-Allow-Methods".toList "POST, GET, PUT, OPTIONS".toList)

/-- Source function `Get`: find and retrieve a document by ID. -/
def Get {Doc Img : Type} (W : World Doc Img) (r : Request) : Response :=
  let w := jsonHeaders Response.empty
  match W.Require w r "col".toList with
  | Except.error w1 => w1
  | Except.ok col =>
  match W.Require w r "id".toList with
  | Except.error w1 => w1
  | Except.ok id =>
  match Atoi id with
  | none => httpError w ("Invalid document ID '".toList ++ id ++ "'.".toList) 400
  | some docID =>
  match W.Use col with
  | none => httpError w ("Collection '".toList ++ col ++ "' does not exist.".toList) 400
  | some dbcol =>
  match dbcol.Read docID with
  | none => httpError w ("No such document ID ".toList ++ Itoa docID ++ ".".toList) 404
  | some doc =>
  match W.marshal doc with
  | Except.error e => httpError w e 500
  | Except.ok resp => w.write (utf8 resp)

/-- Modelled from the spec: `Require`, which lives in another file of the
package, reports a missing required parameter as a client error with a
descriptive message and otherwise yields the value.  Here a parameter is
missing when the form holds no value or an empty one for it, and the error has
status 400.  The theorems take `Require` as a parameter; this instance serves
the concrete runs. -/
def requireForm : RequireFn := fun w r key =>
  if r.FormValue key = [] then
    Except.error (httpError w
      ("Please pass POST/PUT/GET parameter value of '".toList ++ key ++ "'.".toList) 400)
  else Except.ok (r.FormValue key)


/-! ## path/filepath: Ext, Match, Glob -/

/-- The scan of `filepath.Ext` from the end of the path: `rev` is what is still
to scan (reversed), `acc` what was passed. -/
def extScan : GoString → GoString → GoString
  | [], _ => []
  | c :: rev, acc =>
    if c = '/' then []
    else if c = '.' then c :: acc
    else extScan rev (c :: acc)

/-- Go `filepath.Ext`: the suffix starting at the last dot of the last element of
the path, empty when there is no dot. -/
def Ext (path : GoString) : GoString := extScan path.reverse []

/-- Go `hasMeta`: whether the path holds one of the magic characters. -/
def hasMeta (path : GoString) : Bool :=
  path.any fun c => c = '*' || c = '?' || c = '[' || c = '\\'

/-- The scan loop of `scanChunk`, after the leading stars: the chunk up to the
first star outside a character class, and the rest of the pattern.  `escaped`
tells that the character follows a backslash, which the loop steps over. -/
def scanLiteral : GoString → Bool → Bool → GoString × GoString
  | [], _, _ => ([], [])
  | c :: rest, inrange, escaped =>
    if escaped then (c :: (scanLiteral rest inrange false).1, (scanLiteral rest inrange false).2)
    else if c = '\\' then
      (c :: (scanLiteral rest inrange true).1, (scanLiteral rest inrange true).2)
    else if c = '[' then (c :: (scanLiteral rest true false).1, (scanLiteral rest true false).2)
    else if c = ']' then (c :: (scanLiteral rest false false).1, (scanLiteral rest false false).2)
    else if c = '*' ∧ inrange = false then ([], c :: rest)
    else (c :: (scanLiteral rest inrange false).1, (scanLiteral rest inrange false).2)

/-- Go `scanChunk`: whether the pattern starts with stars, the chunk after them,
and the rest. -/
def scanChunk (pattern : GoString) : Bool × GoString × GoString :=
  let q := scanLiteral (pattern.dropWhile fun c => c = '*') false false
  (pattern.head? = some '*', q.1, q.2)

/-- Go `getEsc`: one possibly escaped character of a character class and the
chunk after it; `none` is `ErrBadPattern`. -/
def getEsc (chunk : GoString) : Option (Char × GoString) :=
  match chunk with
  | [] => none
  | c :: rest =>
    if c = '-' ∨ c = ']' then none
    else if c = '\\' then
      match rest with
      | [] => none
      | e :: rest2 => if rest2 = [] then none else some (e, rest2)
    else if rest = [] then none
    else some (c, rest)

/-- The range loop of a character class in `matchChunk`: `r` is the character
to match, `m` whether a range matched so far, `nrange` the ranges read.  Yields
the match flag and the chunk after the closing bracket; `none` is
`ErrBadPattern`.  Every round consumes a character, so `fuel` above the length
of the chunk does not run out. -/
def classLoop : Nat → GoString → Char → Bool → Nat → Option (Bool × GoString)
  | 0, _, _, _, _ => none
  | fuel + 1, chunk, r, m, nrange =>
    if chunk.head? = some ']' ∧ 0 < nrange then some (m, chunk.tail)
    else
      match getEsc chunk with
      | none => none
      | some (lo, chunk1) =>
        if chunk1.head? = some '-' then
          match getEsc chunk1.tail with
          | none => none
          | some (hi, chunk2) =>
            classLoop fuel chunk2 r (m || (decide (lo ≤ r) && decide (r ≤ hi))) (nrange + 1)
        else
          classLoop fuel chunk1 r (m || (decide (lo ≤ r) && decide (r ≤ lo))) (nrange + 1)

/-- Go `matchChunk`: after a failed match the loop goes on through the chunk to
check that it is well formed.  The outer `none` is `ErrBadPattern`; the inner
value is the rest of `s` after a match, `none` when the chunk does not match.
`fuel` is the length of the chunk. -/
def matchChunk : Nat → GoString → GoString → Bool → Option (Option GoString)
  | _, [], s, failed => some (if failed then none else some s)
  | 0, _ :: _, _, _ => none
  | fuel + 1, c :: chunk, s, failed0 =>
    let failed := failed0 || s.isEmpty
    if c = '[' then
      let r := if failed then Char.ofNat 0 else s.headD (Char.ofNat 0)
      let s1 := if failed then s else s.tail
      let negated := decide (chunk.head? = some '^')
      let chunk1 := if negated then chunk.tail else chunk
      match classLoop (chunk1.length + 1) chunk1 r false 0 with
      | none => none
      | some (m, chunk2) => matchChunk fuel chunk2 s1 (failed || (m == negated))
    else if c = '?' then
      if failed then matchChunk fuel chunk s failed
      else matchChunk fuel chunk s.tail (decide (s.head? = some '/'))
    else if c = '\\' then
      match chunk with
      | [] => none
      | e :: chunk1 =>
        if failed then matchChunk fuel chunk1 s failed
        else matchChunk fuel chunk1 s.tail (decide (s.head? ≠ some e))
    else
      if failed then matchChunk fuel chunk s failed
      else matchChunk fuel chunk s.tail (decide (s.head? ≠ some c))

/-- The loop of `Match` that, after a star, looks for a match of the chunk
further on in the name without passing a separator.  `last` tells that the
chunk is the last one, which must then exhaust the name. -/
def starSearch (chunk : GoString) (last : Bool) : GoString → Option (Option GoString)
  | [] => some none
  | c :: rest =>
    if c = '/' then some none
    else
      match matchChunk chunk.length chunk rest false with
      | none => none
      | some (some t) => if last ∧ t ≠ [] then starSearch chunk last rest else some (some t)
      | some none => starSearch chunk last rest

/-- The main loop of `filepath.Match`; `none` is `ErrBadPattern`.  When a chunk
does not match, the result is `false` and the rest of the pattern is not read.
Every round takes a character off the pattern, so `fuel` is the length of the
pattern. -/
def matchLoop : Nat → GoString → GoString → Option Bool
  | 0, _, name => some name.isEmpty
  | fuel + 1, pattern, name =>
    if pattern = [] then some name.isEmpty
    else
      let star := (scanChunk pattern).1
      let chunk := (scanChunk pattern).2.1
      let rest := (scanChunk pattern).2.2
      if star ∧ chunk = [] then some (!name.contains '/')
      else
        let search : Option Bool :=
          if star then
            match starSearch chunk (decide (rest = [])) name with
            | none => none
            | some (some t) => matchLoop fuel rest t
            | some none => some false
          else some false
        match matchChunk chunk.length chunk name false with
        | none => none
        | some (some t) => if t = [] ∨ rest ≠ [] then matchLoop fuel rest t else search
        | some none => search

/-- Go `filepath.Match(pattern, name)`; `none` is `ErrBadPattern`. -/
def Match (pattern name : GoString) : Option Bool := matchLoop pattern.length pattern name

/-- Every path the file system holds. -/
def FS.entries (fs : FS) : List GoString := fs.files.map Prod.fst ++ fs.dirs

/-- The text that precedes the name of an entry of the directory `dir`. -/
def dirPrefix (dir : GoString) : GoString :=
  if dir = ".".toList then []
  else if dir = "/".toList then dir
  else dir ++ "/".toList

/-- The name under which the path `p` is an entry of the directory `dir`. -/
def entryName (dir p : GoString) : Option GoString :=
  if (dirPrefix dir).isPrefixOf p then
    if p.drop (dirPrefix dir).length ≠ [] ∧ '/' ∉ p.drop (dirPrefix dir).length then
      some (p.drop (dirPrefix dir).length)
    else none
  else none

/-- Go `Readdirnames(-1)` followed by `sort.Strings`. -/
def Readdirnames (fs : FS) (dir : GoString) : List GoString :=
  List.insertionSort (fun a b => a ≤ b) (fs.entries.filterMap (entryName dir)).dedup

/-- The loop of `glob` over the sorted names of a directory; a matching name is
returned joined to the directory, spelt as the directory was given. -/
def globNames (dir pattern : GoString) : List GoString → List GoString → Option (List GoString)
  | [], m => some m
  | n :: ns, m =>
    match Match pattern n with
    | none => none
    | some true => globNames dir pattern ns (m ++ [dirPrefix dir ++ n])
    | some false => globNames dir pattern ns m

/-- Go `glob(dir, pattern, matches)`: the entries of `dir` matching `pattern`,
appended to `matches`; when `os.Stat(dir)` fails or `dir` is not a directory,
`matches` is returned as it is. -/
def glob (fs : FS) (dir pattern : GoString) (found : List GoString) : Option (List GoString) :=
  match Stat fs dir with
  | StatResult.dir => globNames dir pattern (Readdirnames fs dir) found
  | _ => some found

/-- Go `globWithLimit`; `none` is `ErrBadPattern`.  `fuel` is what is left of the
limit on the depth of the recursion (the directory is a proper prefix of the
pattern, so the recursion ends long before). -/
def globWithLimit : Nat → FS → GoString → Option (List GoString)
  | 0, _, _ => none
  | fuel + 1, fs, pattern =>
    match Match pattern [] with
    | none => none
    | some _ =>
      if !hasMeta pattern then
        match Stat fs pattern with
        | StatResult.file => some [pattern]
        | StatResult.dir => some [pattern]
        | _ => some []
      else if !hasMeta (cleanGlobPath (Split pattern).1) then
        glob fs (cleanGlobPath (Split pattern).1) (Split pattern).2 []
      else if cleanGlobPath (Split pattern).1 = pattern then none
      else
        match globWithLimit fuel fs (cleanGlobPath (Split pattern).1) with
        | none => none
        | some m => m.foldlM (fun found d => glob fs d (Split pattern).2 found) []

/-- Go `filepath.Glob(pattern)`: the recursion starts at depth 0 and fails with
`ErrBadPattern` when it reaches depth 10000. -/
def Glob (fs : FS) (pattern : GoString) : Option (List GoString) :=
  globWithLimit 10000 fs pattern

/-- Go `os.Remove(p)`: removes a regular file or an empty directory; fails on a
directory with entries and on a name that does not exist. -/
def Remove (fs : FS) (p : GoString) : Option FS :=
  if fs.isFile p then some { fs with files := fs.files.filter fun e => e.1 ≠ p }
  else if fs.dirs.contains p then
    if fs.entries.any (fun e => (entryName p e).isSome) then none
    else some { fs with dirs := fs.dirs.filter fun d => d ≠ p }
  else none

/-- The loop of `DeleteDocument` over the files the glob found: a failed
`os.Remove` panics. -/
def removeAll : FS → List GoString → Except Crash FS
  | fs, [] => Except.ok fs
  | fs, f :: files =>
    match Remove fs f with
    | none => Except.error Crash.panic
    | some fs1 => removeAll fs1 files

/-- Source function `DeleteDocument`: remove everything that matches the glob
`getPathToID(id, col) + "*"`; an error of `Glob` or `os.Remove` panics. -/
def DeleteDocument (CSDir : GoString) (fs : FS) (id : Int) (col : GoString) : Except Crash FS :=
  match getPathToID CSDir id col with
  | Except.error e => Except.error e
  | Except.ok p =>
    match Glob fs (p ++ "*".toList) with
    | none => Except.error Crash.panic
    | some files => removeAll fs files

/-! ## The write handlers -/

/-- The `multipart.File` of an upload while a handler reads it. -/
structure Stream where
  data : Bytes
  pos : Nat
  closed : Bool
  onDisk : Bool
  deriving DecidableEq, Repr

/-- What a reader of the stream still gets: the bytes from the position on;
nothing once a file spooled to disk is closed (`Close` on a part held in
memory does nothing). -/
def Stream.unread (f : Stream) : Bytes :=
  if f.closed && f.onDisk then [] else f.data.drop f.pos

/-- Source function `CreatePreview`: decode the stream as JPEG, close it,
resize to width 150
and write the encoded image to the `.preview.jpg` file; `log.Fatal` on a failed
decode or `os.Create`.  Yields the file system and the stream as it leaves
them. -/
def CreatePreview {Doc Img : Type} (W : World Doc Img) (CSDir : GoString) (fs : FS) (id : Int)
    (col : GoString) (file : Stream) : Except Crash (FS × Stream) :=
  match W.jpegDecode file.unread with
  | none => Except.error Crash.fatal
  | some (img, n) =>
    let file1 : Stream := { file with pos := file.pos + n, closed := true }
    let m := W.resize 150 0 img
    match getPathToID CSDir id col with
    | Except.error e => Except.error e
    | Except.ok p =>
      match Create fs (p ++ ".preview.jpg".toList) with
      | none => Except.error Crash.fatal
      | some fs1 => Except.ok (writeAt0 fs1 (p ++ ".preview.jpg".toList) (W.jpegEncode m), file1)

/-- The headers the write handlers start with. -/
def plainHeaders (w : Response) : Response :=
  (w.setHeader "Cache-Control".toList "must-revalidate".toList
    |>.setHeader "Content-Type".toList "text/plain".toList
    |>.setHeader "Access-Control-Allow-Origin".toList "*".toList
    |>.setHeader "Access-Control-Allow-Methods".toList "POST, GET, PUT, OPTIONS".toList)

/-- The end of a successful `Insert`: `w.WriteHeader(201)` and the id as body. -/
def created (w : Response) (id : Int) : Response :=
  { w with status := 201, body := w.body ++ utf8 (Itoa id) }

/-- The part of `Insert` after the body file is saved, for a request with a
file part `h`. -/
def insertFile {Doc Img : Type} (W : World Doc Img) (CSDir : GoString) (w : Response) (fs1 : FS)
    (id : Int) (col : GoString) (h : Upload) : Except Crash (Response × FS) :=
  match h.ContentType with
  | [] => Except.error Crash.panic
  | ct :: _ =>
    match W.marshalMeta { Id := id, Filename := h.Filename, Size := h.Size, Filetype := ct } with
    | none => Except.ok (w, fs1)
    | some filemeta =>
      let file0 : Stream := { data := h.data, pos := 0, closed := false, onDisk := h.onDisk }
      let preview : Except Crash (FS × Stream) :=
        if ct = "image/jpeg".toList then CreatePreview W CSDir fs1 id col file0
        else Except.ok (fs1, file0)
      match preview with
      | Except.error e => Except.error e
      | Except.ok (fs2, file1) =>
        match SaveDocument CSDir fs2 id col ".meta".toList filemeta with
        | Except.error e => Except.error e
        | Except.ok fs3 =>
          match getPathToID CSDir id col with
          | Except.error e => Except.error e
          | Except.ok p =>
            match OpenFile fs3 (p ++ Ext h.Filename) with
            | none => Except.ok (w, fs3)
            | some fs4 =>
              Except.ok (created w id, writeAt0 fs4 (p ++ Ext h.Filename) file1.unread)

/-- The document text of an insert: the form value `doc` when a file was
uploaded, otherwise the request body; when that is empty, the parameter `doc`
is required. -/
def requestDoc (Require : RequireFn) (w : Response) (r : Request) : Except Response GoString :=
  let doc := match r.file with
    | some _ => r.FormValue "doc".toList
    | none => r.body
  if doc = [] then Require w r "doc".toList else Except.ok doc

/-- Source function `Insert`: insert a document into a collection, save its
JSON text and, when
a file was uploaded, its metadata, preview and content. -/
def Insert {Doc Img : Type} (W : World Doc Img) (CSDir : GoString) (fs : FS) (r : Request) :
    Except Crash (Response × FS) :=
  let w := plainHeaders Response.empty
  match W.Require w r "col".toList with
  | Except.error w1 => Except.ok (w1, fs)
  | Except.ok col =>
  match requestDoc W.Require w r with
  | Except.error w1 => Except.ok (w1, fs)
  | Except.ok doc =>
  match W.unmarshal doc with
  | none =>
    Except.ok (httpError w ("'".toList ++ doc ++ "' is not valid JSON document.".toList) 400, fs)
  | some jsonDoc =>
  match W.Use col with
  | none =>
    Except.ok (httpError w ("Collection '".toList ++ col ++ "' does not exist.".toList) 400, fs)
  | some dbcol =>
  match dbcol.Insert jsonDoc with
  | Except.error e => Except.ok (httpError w e 500, fs)
  | Except.ok id =>
  match SaveDocument CSDir fs id col ".json".toList doc with
  | Except.error e => Except.error e
  | Except.ok fs1 =>
  match r.file with
  | none => Except.ok (created w id, fs1)
  | some h => insertFile W CSDir w fs1 id col h

/-- Source function `Update`: update a document, then purge its content-store
files and save
the new JSON text. -/
def Update {Doc Img : Type} (W : World Doc Img) (CSDir : GoString) (fs : FS) (r : Request) :
    Except Crash (Response × FS) :=
  let w := plainHeaders Response.empty
  match W.Require w r "col".toList with
  | Except.error w1 => Except.ok (w1, fs)
  | Except.ok col =>
  match W.Require w r "id".toList with
  | Except.error w1 => Except.ok (w1, fs)
  | Except.ok id =>
  match (if r.body = [] then W.Require w r "doc".toList else Except.ok r.body) with
  | Except.error w1 => Except.ok (w1, fs)
  | Except.ok doc =>
  match Atoi id with
  | none => Except.ok (httpError w ("Invalid document ID '".toList ++ id ++ "'.".toList) 400, fs)
  | some docID =>
  match W.unmarshal doc with
  | none =>
    Except.ok (httpError w "'map[]' is not valid JSON document.".toList 400, fs)
  | some newDoc =>
  match W.Use col with
  | none =>
    Except.ok (httpError w ("Collection '".toList ++ col ++ "' does not exist.".toList) 400, fs)
  | some dbcol =>
  match dbcol.Update docID newDoc with
  | some e => Except.ok (httpError w e 500, fs)
  | none =>
  match DeleteDocument CSDir fs docID col with
  | Except.error e => Except.error e
  | Except.ok fs1 =>
  match SaveDocument CSDir fs1 docID col ".json".toList doc with
  | Except.error e => Except.error e
  | Except.ok fs2 => Except.ok (w, fs2)

/-! ## Vocabulary of the statements -/

/-- A byte `0`..`9`. -/
def isDigit (c : Char) : Prop := 48 ≤ c.toNat ∧ c.toNat ≤ 57

/-- The shard directory of a document as the specification writes it:
`CSDir/col/d[0:2]/d[2:4]` for the decimal text `d` of the id. -/
def shardDir (CSDir : GoString) (id : Int) (col : GoString) : GoString :=
  CSDir ++ "/".toList ++ col ++ "/".toList ++ (Itoa id).take 2 ++ "/".toList ++
    ((Itoa id).drop 2).take 2

/-- The path stem of a document as the specification writes it: the shard
directory, a separator and the decimal id. -/
def docPath (CSDir : GoString) (id : Int) (col : GoString) : GoString :=
  shardDir CSDir id col ++ '/' :: Itoa id

/-! ## Concrete inputs -/

/-- A form with the three parameters of `CSGet`. -/
def csRequest (id col type : String) : Request :=
  { form := [("id".toList, id.toList), ("col".toList, col.toList), ("type".toList, type.toList)],
    body := [], file := none }

/-- The store after `{}` was saved as the body of document 1234 of `notes`. -/
def savedNotes : FS :=
  { files := [("cs/notes/12/34/1234.json".toList, utf8 "\x7b\x7d".toList)],
    dirs := ["cs".toList, "cs/notes".toList, "cs/notes/12".toList, "cs/notes/12/34".toList] }

/-- A collection that holds the one document 1234. -/
def demoCollection : Collection GoString :=
  { Insert := fun _ => Except.ok 1234,
    Read := fun id => if id = 1234 then some "\x7b\x7d".toList else none,
    Update := fun _ _ => none }

/-- A stand-in for the packages around the handlers: the one collection
`notes`, every text that starts with a brace taken as JSON, a decoder that
accepts what starts with the JPEG marker `FF D8` and reads the stream to its
end, and an encoder that writes the marker. -/
def demoWorld : World GoString Bytes :=
  { Require := requireForm,
    Use := fun col => if col = "notes".toList then some demoCollection else none,
    unmarshal := fun doc => if doc.head? = some '\x7b' then some doc else none,
    marshal := fun doc => Except.ok doc,
    marshalMeta := fun fm =>
      some ("\x7b\"id\":".toList ++ Itoa fm.Id ++ ",\"filename\":\"".toList ++ fm.Filename ++
        "\",\"size\":".toList ++ Itoa fm.Size ++ ",\"filetype\":\"".toList ++ fm.Filetype ++
        "\"\x7d".toList),
    jpegDecode := fun b => if b.take 2 = [0xFF, 0xD8] then some (b, b.length) else none,
    resize := fun _ _ img => img,
    jpegEncode := fun _ => [0xFF, 0xD8, 0xFF, 0xD9] }

/-- A form with the two parameters of `Get`. -/
def getRequest (id col : String) : Request :=
  { form := [("id".toList, id.toList), ("col".toList, col.toList)], body := [], file := none }

/-- As `demoWorld`, with every collection name in use. -/
def openWorld : World GoString Bytes :=
  { demoWorld with Use := fun _ => some demoCollection }

/-- A multipart insert into `col`: the document `{"text":"hi"}` as form value
and a file part held in memory. -/
def uploadRequest (col filename ctype : String) (data : Bytes) : Request :=
  { form := [("col".toList, col.toList), ("doc".toList, "\x7b\"text\":\"hi\"\x7d".toList)],
    body := [],
    file := some { Filename := filename.toList, Size := data.length, ContentType := [ctype.toList],
                   data := data, onDisk := false } }

/-- A small JPEG stand-in: the start marker, two bytes, the end marker. -/
def tinyJpeg : Bytes := [0xFF, 0xD8, 0x01, 0x02, 0xFF, 0xD9]

/-- The four artifacts of document 1234 of `col`, as the insert of `tinyJpeg`
under the name `photo.jpg` leaves them in an empty store `cs`. -/
def storeOf (col : String) : FS :=
  { files :=
      [(("cs/" ++ col ++ "/12/34/1234.jpg").toList, []),
       (("cs/" ++ col ++ "/12/34/1234.meta").toList,
         utf8 ("\x7b\"id\":1234,\"filename\":\"photo.jpg\",\"size\":6," ++
           "\"filetype\":\"image/jpeg\"\x7d").toList),
       (("cs/" ++ col ++ "/12/34/1234.preview.jpg").toList, [0xFF, 0xD8, 0xFF, 0xD9]),
       (("cs/" ++ col ++ "/12/34/1234.json").toList, utf8 "\x7b\"text\":\"hi\"\x7d".toList)],
    dirs := ["cs".toList, ("cs/" ++ col).toList, ("cs/" ++ col ++ "/12").toList,
      ("cs/" ++ col ++ "/12/34").toList] }

/-- An update request: the parameters `col` and `id` and the new document as
body. -/
def updateRequest (col id doc : String) : Request :=
  { form := [("col".toList, col.toList), ("id".toList, id.toList)], body := doc.toList,
    file := none }

/-- A store that holds the bodies of the documents 1234 and 12345 of `notes`. -/
def twoDocs : FS :=
  { files := [("cs/notes/12/34/12345.json".toList, utf8 "\x7b\"n\":2\x7d".toList),
              ("cs/notes/12/34/1234.json".toList, utf8 "\x7b\"n\":1\x7d".toList)],
    dirs := ["cs".toList, "cs/notes".toList, "cs/notes/12".toList, "cs/notes/12/34".toList] }

/-- The store after the body `{"text":"hi"}` of document 1234 of `notes` was
saved into the empty store `cs`. -/
def bodyOnly : FS :=
  { files := [("cs/notes/12/34/1234.json".toList, utf8 "\x7b\"text\":\"hi\"\x7d".toList)],
    dirs := ["cs".toList, "cs/notes".toList, "cs/notes/12".toList, "cs/notes/12/34".toList] }

/-- A JPEG stand-in of 4096 bytes: the start marker, 4092 zero bytes, the end
marker. -/
def jpeg4096 : Bytes := [0xFF, 0xD8] ++ List.replicate 4092 0 ++ [0xFF, 0xD9]

/-! ## Theorems -/

/-! ### Decimal text -/

theorem digitChar_toNat (d : Nat) (h : d < 10) : (digitChar d).toNat = 48 + d := by
  interval_cases d <;> rfl

theorem digitChar_isDigit (d : Nat) (h : d < 10) : isDigit (digitChar d) := by
  unfold isDigit
  rw [digitChar_toNat d h]
  omega

theorem natDigits_append (fuel : Nat) : ∀ (n : Nat) (acc : GoString),
    natDigits fuel n acc = natDigits fuel n [] ++ acc := by
  induction fuel with
  | zero => intro n acc; simp [natDigits]
  | succ f ih =>
    intro n acc
    simp only [natDigits]
    by_cases h : n < 10
    · simp [h]
    · simp only [h, if_false]
      rw [ih (n / 10) (digitChar (n % 10) :: acc), ih (n / 10) [digitChar (n % 10)]]
      simp

theorem natDigits_length (fuel : Nat) : ∀ (n k : Nat) (acc : GoString),
    10 ^ k ≤ n → n < fuel → acc.length + k + 1 ≤ (natDigits fuel n acc).length := by
  induction fuel with
  | zero => intro n k acc _ h; omega
  | succ f ih =>
    intro n k acc hk hn
    simp only [natDigits]
    by_cases h : n < 10
    · have hk0 : k = 0 := by
        by_contra hne
        have : 10 ^ 1 ≤ 10 ^ k := Nat.pow_le_pow_right (by norm_num) (Nat.one_le_iff_ne_zero.mpr hne)
        omega
      simp [h, hk0]
    · simp only [h, if_false]
      have hlt : n / 10 < f := by omega
      cases k with
      | zero =>
        have := ih (n / 10) 0 (digitChar (n % 10) :: acc) (by simp; omega) hlt
        simp at this ⊢
        omega
      | succ j =>
        have hj : 10 ^ j ≤ n / 10 := by
          rw [Nat.le_div_iff_mul_le (by norm_num)]
          rw [pow_succ] at hk
          exact hk
        have := ih (n / 10) j (digitChar (n % 10) :: acc) hj hlt
        simp at this ⊢
        omega

theorem natDigits_isDigit (fuel : Nat) : ∀ (n : Nat), n < fuel →
    ∀ c ∈ natDigits fuel n [], isDigit c := by
  induction fuel with
  | zero => intro n h; omega
  | succ f ih =>
    intro n hn c hc
    simp only [natDigits] at hc
    by_cases h : n < 10
    · simp only [h, if_true, List.mem_singleton] at hc
      rw [hc]
      exact digitChar_isDigit n h
    · simp only [h, if_false] at hc
      rw [natDigits_append] at hc
      rcases List.mem_append.mp hc with h1 | h1
      · exact ih (n / 10) (by omega) c h1
      · rw [List.mem_singleton] at h1
        rw [h1]
        exact digitChar_isDigit _ (Nat.mod_lt _ (by norm_num))

theorem parseDigits_append (xs ys : GoString) : ∀ v : Nat,
    parseDigits (xs ++ ys) v = (parseDigits xs v).bind (parseDigits ys) := by
  induction xs with
  | nil => intro v; simp [parseDigits]
  | cons c cs ih =>
    intro v
    simp only [List.cons_append, parseDigits]
    split
    · exact ih _
    · rfl

theorem parseDigits_natDigits (fuel : Nat) : ∀ (n : Nat), n < fuel →
    parseDigits (natDigits fuel n []) 0 = some n := by
  induction fuel with
  | zero => intro n h; omega
  | succ f ih =>
    intro n hn
    simp only [natDigits]
    by_cases h : n < 10
    · simp only [h, if_true, parseDigits]
      have := digitChar_toNat n h
      simp [this]
      omega
    · simp only [h, if_false]
      rw [natDigits_append, parseDigits_append, ih (n / 10) (by omega)]
      simp only [Option.bind_some, parseDigits]
      have := digitChar_toNat (n % 10) (Nat.mod_lt _ (by norm_num))
      simp only [this]
      simp
      omega

theorem formatNat_isDigit (n : Nat) : ∀ c ∈ formatNat n, isDigit c :=
  natDigits_isDigit (n + 1) n (Nat.lt_succ_self n)

theorem formatNat_length (n : Nat) (h : 1000 ≤ n) : 4 ≤ (formatNat n).length := by
  have := natDigits_length (n + 1) n 3 [] (by norm_num; exact h) (Nat.lt_succ_self n)
  simpa [formatNat] using this

theorem formatNat_ne_nil (n : Nat) : formatNat n ≠ [] := by
  unfold formatNat
  simp only [natDigits]
  by_cases h : n < 10
  · simp [h]
  · simp only [h, if_false]
    rw [natDigits_append]
    simp

theorem Atoi_formatNat (n : Nat) (h : (n : Int) ≤ maxInt) :
    Atoi (formatNat n) = some (n : Int) := by
  have hd := formatNat_isDigit n
  have hp : parseDigits (formatNat n) 0 = some n :=
    parseDigits_natDigits (n + 1) n (Nat.lt_succ_self n)
  have hne := formatNat_ne_nil n
  generalize formatNat n = s at hd hp hne
  unfold Atoi
  split
  · exact absurd rfl hne
  · have := hd '-' (by simp)
    unfold isDigit at this
    exact absurd this (by decide)
  · have := hd '+' (by simp)
    unfold isDigit at this
    exact absurd this (by decide)
  · rw [hp]
    simp only
    rw [if_neg (not_lt.mpr h)]

theorem Atoi_Itoa (id : Int) (h0 : 0 ≤ id) (h : id ≤ maxInt) : Atoi (Itoa id) = some id := by
  obtain ⟨n, rfl⟩ := Int.eq_ofNat_of_zero_le h0
  exact Atoi_formatNat n h

theorem Itoa_length (id : Int) (h : 1000 ≤ id) : 4 ≤ (Itoa id).length := by
  obtain ⟨n, rfl⟩ := Int.eq_ofNat_of_zero_le (by omega : 0 ≤ id)
  exact formatNat_length n (by exact_mod_cast h)

theorem Itoa_isDigit (id : Int) (h : 0 ≤ id) : ∀ c ∈ Itoa id, isDigit c := by
  obtain ⟨n, rfl⟩ := Int.eq_ofNat_of_zero_le h
  exact formatNat_isDigit n

theorem natDigits_length_le (fuel : Nat) : ∀ (n k : Nat) (acc : GoString),
    n < 10 ^ (k + 1) → (natDigits fuel n acc).length ≤ acc.length + k + 1 := by
  induction fuel with
  | zero => intro n k acc _; simp [natDigits]; omega
  | succ f ih =>
    intro n k acc hk
    simp only [natDigits]
    by_cases h : n < 10
    · simp [h]
    · simp only [h, if_false]
      cases k with
      | zero => simp at hk; omega
      | succ j =>
        have hj : n / 10 < 10 ^ (j + 1) := by
          rw [Nat.div_lt_iff_lt_mul (by norm_num)]
          rw [pow_succ] at hk
          exact hk
        have := ih (n / 10) j (digitChar (n % 10) :: acc) hj
        simp at this ⊢
        omega

theorem Itoa_length_small (id : Int) (h0 : 0 ≤ id) (h : id < 1000) : (Itoa id).length < 4 := by
  obtain ⟨n, rfl⟩ := Int.eq_ofNat_of_zero_le h0
  have hn : n < 10 ^ (2 + 1) := by norm_num; exact_mod_cast h
  have := natDigits_length_le (n + 1) n 2 [] hn
  simp only [Itoa, formatNat]
  simp at this
  omega

/-! ### The path resolver -/

theorem slice_front (s : GoString) (h : 4 ≤ s.length) :
    slice s 0 2 = Except.ok (s.take 2) ∧ slice s 2 4 = Except.ok ((s.drop 2).take 2) := by
  constructor
  · unfold slice
    rw [if_pos ⟨by omega, by omega⟩]
    simp
  · unfold slice
    rw [if_pos ⟨by omega, by omega⟩]

theorem getPathToID_of_length (CSDir col : GoString) (id : Int) (hl : 4 ≤ (Itoa id).length) :
    getPathToID CSDir id col = Except.ok (shardDir CSDir id col ++ '/' :: Itoa id) := by
  obtain ⟨h1, h2⟩ := slice_front (Itoa id) hl
  simp [getPathToID, shardDir, h1, h2, bind, Except.bind, pure, Except.pure]

theorem shardPath_of_length (CSDir col : GoString) (id : Int) (hl : 4 ≤ (Itoa id).length) :
    shardPath CSDir id col = Except.ok (shardDir CSDir id col) := by
  obtain ⟨h1, h2⟩ := slice_front (Itoa id) hl
  simp [shardPath, shardDir, h1, h2, bind, Except.bind, pure, Except.pure]

theorem getPathToID_short (CSDir col : GoString) (id : Int) (hl : ¬ 4 ≤ (Itoa id).length) :
    getPathToID CSDir id col = Except.error Crash.panic := by
  unfold getPathToID slice
  by_cases h2 : 2 ≤ (Itoa id).length
  · simp [h2, hl, bind, Except.bind]
  · simp [h2, bind, Except.bind]

theorem shardPath_short (CSDir col : GoString) (id : Int) (hl : ¬ 4 ≤ (Itoa id).length) :
    shardPath CSDir id col = Except.error Crash.panic := by
  unfold shardPath slice
  by_cases h2 : 2 ≤ (Itoa id).length
  · simp [h2, hl, bind, Except.bind]
  · simp [h2, bind, Except.bind]

theorem getPathToID_eq (CSDir col : GoString) (id : Int) (h : 1000 ≤ id) :
    getPathToID CSDir id col = Except.ok (shardDir CSDir id col ++ '/' :: Itoa id) := by
  obtain ⟨h1, h2⟩ := slice_front (Itoa id) (Itoa_length id h)
  simp [getPathToID, shardDir, h1, h2, bind, Except.bind, pure, Except.pure]

theorem shardPath_eq (CSDir col : GoString) (id : Int) (h : 1000 ≤ id) :
    shardPath CSDir id col = Except.ok (shardDir CSDir id col) := by
  obtain ⟨h1, h2⟩ := slice_front (Itoa id) (Itoa_length id h)
  simp [shardPath, shardDir, h1, h2, bind, Except.bind, pure, Except.pure]

theorem slice_short (s : GoString) (h : s.length < 4) :
    slice s 2 4 = Except.error Crash.panic := by
  unfold slice
  rw [if_neg (by omega)]

theorem getPathToID_small (CSDir col : GoString) (id : Int) (h0 : 0 ≤ id) (h : id < 1000) :
    getPathToID CSDir id col = Except.error Crash.panic :=
  getPathToID_short CSDir col id (by have := Itoa_length_small id h0 h; omega)

theorem shardPath_small (CSDir col : GoString) (id : Int) (h0 : 0 ≤ id) (h : id < 1000) :
    shardPath CSDir id col = Except.error Crash.panic :=
  shardPath_short CSDir col id (by have := Itoa_length_small id h0 h; omega)

/-! ### Files -/

theorem lookup_filter_same (p : GoString) (l : List (GoString × Bytes)) :
    (l.filter fun e => e.1 ≠ p).lookup p = none := by
  induction l with
  | nil => rfl
  | cons e l ih =>
    obtain ⟨k, v⟩ := e
    by_cases h : k = p
    · rw [List.filter_cons_of_neg (by simp [h])]
      exact ih
    · rw [List.filter_cons_of_pos (by simp [h])]
      have h2 : (p == k) = false := by simpa using fun h3 => h h3.symm
      rw [List.lookup_cons, h2]
      exact ih

theorem lookup_filter_ne (p q : GoString) (hq : q ≠ p) (l : List (GoString × Bytes)) :
    (l.filter fun e => e.1 ≠ p).lookup q = l.lookup q := by
  induction l with
  | nil => rfl
  | cons e l ih =>
    obtain ⟨k, v⟩ := e
    by_cases h : k = p
    · rw [List.filter_cons_of_neg (by simp [h])]
      have h2 : (q == k) = false := by simpa [h] using hq
      rw [List.lookup_cons, h2]
      exact ih
    · rw [List.filter_cons_of_pos (by simp [h])]
      rw [List.lookup_cons, List.lookup_cons, ih]

theorem readFile_put_same (fs : FS) (p : GoString) (c : Bytes) :
    (fs.put p c).readFile p = some c := by
  simp [FS.put, FS.readFile, List.lookup_cons]

theorem readFile_put_ne (fs : FS) (p q : GoString) (c : Bytes) (h : q ≠ p) :
    (fs.put p c).readFile q = fs.readFile q := by
  have h2 : (q == p) = false := by simpa using h
  simp only [FS.put, FS.readFile, List.lookup_cons, h2]
  exact lookup_filter_ne p q h fs.files

theorem writeAt0_put_nil (fs : FS) (p : GoString) (data : Bytes) :
    writeAt0 (fs.put p []) p data = fs.put p data := by
  unfold writeAt0
  rw [readFile_put_same]
  simp [FS.put, List.filter_filter]

theorem len_ge_length (s : GoString) : s.length ≤ len s := by
  unfold len utf8
  induction s with
  | nil => simp
  | cons c cs ih =>
    have := Char.utf8Size_pos c
    simp only [List.flatMap_cons, List.length_append, String.length_utf8EncodeChar,
      List.length_cons]
    omega

/-- A `SaveDocument` that returns was given an id whose decimal text has at
least four characters. -/
theorem SaveDocument_ok_length (CSDir col ext content : GoString) (id : Int) (fs fs' : FS)
    (hs : SaveDocument CSDir fs id col ext content = Except.ok fs') : 4 ≤ (Itoa id).length := by
  by_contra hl
  unfold SaveDocument at hs
  rw [shardPath_short CSDir col id hl] at hs
  simp [bind, Except.bind] at hs

/-- What a successful `SaveDocument` leaves: the file holds the content, the
other files are unchanged, the file is not a directory and lies in one. -/
theorem SaveDocument_ok_inv (CSDir col ext content : GoString) (id : Int) (fs fs' : FS)
    (hs : SaveDocument CSDir fs id col ext content = Except.ok fs') :
    ∃ fs1 : FS, fs1.files = fs.files ∧
      (fs1 = fs ∨ (statNotExist fs (shardDir CSDir id col) = true ∧
        MkdirAll fs (shardDir CSDir id col) = some fs1)) ∧
      badName (shardDir CSDir id col ++ '/' :: Itoa id ++ ext) = false ∧
      fs1.isDir (shardDir CSDir id col ++ '/' :: Itoa id ++ ext) = false ∧
      fs1.isDir (parentDir (shardDir CSDir id col ++ '/' :: Itoa id ++ ext)) = true ∧
      fs' = fs1.put (shardDir CSDir id col ++ '/' :: Itoa id ++ ext) (utf8 content) := by
  have hl := SaveDocument_ok_length CSDir col ext content id fs fs' hs
  unfold SaveDocument at hs
  rw [shardPath_of_length CSDir col id hl, getPathToID_of_length CSDir col id hl] at hs
  simp only [bind, Except.bind, pure, Except.pure] at hs
  generalize hfs1 : (if statNotExist fs (shardDir CSDir id col) = true then
    (MkdirAll fs (shardDir CSDir id col)).getD fs else fs) = fs1 at hs
  refine ⟨fs1, ?_, ?_, ?_⟩
  · rw [← hfs1]
    split
    · unfold MkdirAll
      split <;> rfl
    · rfl
  · rw [← hfs1]
    split
    · rename_i hst
      cases hm : MkdirAll fs (shardDir CSDir id col) with
      | none => left; rfl
      | some x => right; exact ⟨hst, by simp⟩
    · left; rfl
  · cases hC : Create fs1 (shardDir CSDir id col ++ '/' :: Itoa id ++ ext) with
    | none => rw [hC] at hs; simp at hs
    | some fs2 =>
      rw [hC] at hs
      simp only [Except.ok.injEq] at hs
      unfold Create at hC
      split at hC
      · simp at hC
      · rename_i hc
        simp only [Bool.or_eq_true, Bool.not_eq_true', not_or, Bool.not_eq_true,
          Bool.not_eq_false] at hc
        simp only [Option.some.injEq] at hC
        rw [← hC, writeAt0_put_nil] at hs
        exact ⟨hc.1.1, hc.1.2, hc.2, hs.symm⟩

theorem takeWhile_append_stop {α : Type} (q : α → Bool) (l r : List α) (a : α)
    (hl : ∀ x ∈ l, q x = true) (ha : q a = false) :
    (l ++ a :: r).takeWhile q = l ∧ (l ++ a :: r).dropWhile q = a :: r := by
  induction l with
  | nil => simp [List.takeWhile, List.dropWhile, ha]
  | cons x xs ih =>
    have hx := hl x (List.mem_cons_self x xs)
    have := ih (fun y hy => hl y (List.mem_cons_of_mem x hy))
    simp [List.takeWhile, List.dropWhile, hx, this]

theorem Split_child (D n : GoString) (hn : '/' ∉ n) :
    Split (D ++ '/' :: n) = (D ++ ['/'], n) := by
  have hrev : (D ++ '/' :: n).reverse = n.reverse ++ '/' :: D.reverse := by simp
  have hq : ∀ x ∈ n.reverse, (fun c : Char => decide (c ≠ '/')) x = true := by
    intro x hx
    have : x ≠ '/' := fun h => hn (h ▸ List.mem_reverse.mp hx)
    simpa using this
  obtain ⟨h1, h2⟩ := takeWhile_append_stop (fun c : Char => decide (c ≠ '/')) n.reverse
    D.reverse '/' hq (by simp)
  unfold Split
  rw [hrev, h1, h2]
  simp

theorem parentDir_child (D n : GoString) (hD : D ≠ []) (hn : '/' ∉ n) :
    parentDir (D ++ '/' :: n) = D := by
  unfold parentDir
  rw [Split_child D n hn]
  unfold cleanGlobPath
  have h1 : D ++ ['/'] ≠ [] := by simp
  have h2 : D ++ ['/'] ≠ "/".toList := by
    intro h
    have := congrArg List.length h
    simp at this
    exact hD this
  simp only [h1, h2, if_false]
  exact List.dropLast_concat

theorem shardDir_ne_nil (CSDir col : GoString) (id : Int) : shardDir CSDir id col ≠ [] := by
  unfold shardDir
  intro h
  have := congrArg List.length h
  simp at this

theorem slash_not_digit (s : GoString) (h : ∀ c ∈ s, isDigit c) : '/' ∉ s := by
  intro hm
  have := h '/' hm
  unfold isDigit at this
  revert this
  decide

theorem slash_not_mem_Itoa (id : Int) : '/' ∉ Itoa id := by
  cases id with
  | ofNat n => exact slash_not_digit _ (formatNat_isDigit n)
  | negSucc n =>
    intro hm
    simp only [Itoa, List.mem_cons] at hm
    rcases hm with h1 | h1
    · revert h1; decide
    · exact slash_not_digit _ (formatNat_isDigit (n + 1)) h1

theorem parentDir_artifact (CSDir col ext : GoString) (id : Int) (he : '/' ∉ ext) :
    parentDir (shardDir CSDir id col ++ '/' :: Itoa id ++ ext) = shardDir CSDir id col := by
  have : shardDir CSDir id col ++ '/' :: Itoa id ++ ext =
      shardDir CSDir id col ++ '/' :: (Itoa id ++ ext) := by simp
  rw [this]
  apply parentDir_child _ _ (shardDir_ne_nil CSDir col id)
  intro hm
  rcases List.mem_append.mp hm with h1 | h1
  · exact slash_not_mem_Itoa id h1
  · exact he h1

theorem isDir_put (fs : FS) (p q : GoString) (c : Bytes) : (fs.put p c).isDir q = fs.isDir q := rfl

theorem Stat_of_isDir (fs : FS) (p : GoString) (h : fs.isDir p = true) :
    Stat fs p = StatResult.dir := by
  simp [Stat, h]

theorem Stat_of_file (fs : FS) (p : GoString) (hd : fs.isDir p = false)
    (hf : fs.isFile p = true) : Stat fs p = StatResult.file := by
  simp [Stat, hd, hf]

theorem Stat_notExist (fs : FS) (p : GoString) (h : Stat fs p = StatResult.notExist) :
    fs.isDir p = false ∧ fs.isFile p = false := by
  unfold Stat at h
  cases hd : fs.isDir p
  · cases hf : fs.isFile p
    · exact ⟨rfl, rfl⟩
    · simp [hd, hf] at h
  · simp [hd] at h

theorem statNotExist_of_isDir (fs : FS) (p : GoString) (h : fs.isDir p = true) :
    statNotExist fs p = false := by
  simp [statNotExist, Stat_of_isDir fs p h]

theorem statNotExist_iff (fs : FS) (p : GoString) :
    statNotExist fs p = true ↔ Stat fs p = StatResult.notExist := by
  simp [statNotExist]

theorem isFile_of_readFile (fs : FS) (p : GoString) (c : Bytes) (h : fs.readFile p = some c) :
    fs.isFile p = true := by
  unfold FS.isFile
  unfold FS.readFile at h
  rw [h]
  rfl

theorem fileExists_of_file (fs : FS) (p : GoString) (c : Bytes) (hr : fs.readFile p = some c)
    (hd : fs.isDir p = false) : fileExists fs p = Except.ok true := by
  unfold fileExists
  rw [Stat_of_file fs p hd (isFile_of_readFile fs p c hr)]

theorem fileExists_of_notExist (fs : FS) (p : GoString) (h : Stat fs p = StatResult.notExist) :
    fileExists fs p = Except.ok false := by
  unfold fileExists
  rw [h]

theorem isFile_put_same (fs : FS) (p : GoString) (c : Bytes) : (fs.put p c).isFile p = true := by
  unfold FS.isFile
  have := readFile_put_same fs p c
  unfold FS.readFile at this
  rw [this]
  rfl

/-! ### CSGet -/

theorem typeHeader_body (w : Response) (t : GoString) : (typeHeader w t).body = w.body := by
  unfold typeHeader
  split
  · rfl
  · split <;> rfl

/-- The run of `CSGet` on a request that carries the decimal text of an id of
at least four digits, a collection and a type selector. -/
theorem CSGet_eval (Require : RequireFn) (CSDir col t : GoString) (id : Int) (fs : FS)
    (r : Request) (h : 1000 ≤ id) (hmax : id ≤ maxInt)
    (hid : Require (commonHeaders Response.empty) r "id".toList = Except.ok (Itoa id))
    (hcol : Require (commonHeaders Response.empty) r "col".toList = Except.ok col)
    (htype : Require (commonHeaders Response.empty) r "type".toList = Except.ok t) :
    CSGet Require CSDir fs r =
      match fileExists fs (shardDir CSDir id col ++ '/' :: Itoa id ++ '.' :: t) with
      | Except.error e => Except.error e
      | Except.ok false =>
        Except.ok (httpError (typeHeader (commonHeaders Response.empty) t)
          ("File for id '".toList ++ Itoa id ++ "' does not exist".toList) 400)
      | Except.ok true =>
        match fs.readFile (shardDir CSDir id col ++ '/' :: Itoa id ++ '.' :: t) with
        | none => Except.error Crash.panic
        | some doc => Except.ok ((typeHeader (commonHeaders Response.empty) t).write doc) := by
  have hlen : ¬ len (Itoa id) < 4 := by
    have := len_ge_length (Itoa id)
    have := Itoa_length id h
    omega
  have hp : shardDir CSDir id col ++ '/' :: Itoa id ++ ".".toList ++ t =
      shardDir CSDir id col ++ '/' :: Itoa id ++ '.' :: t := by simp
  unfold CSGet
  simp only [hid, hcol, htype, hlen, if_false, Atoi_Itoa id (by omega) hmax,
    getPathToID_eq CSDir col id h, hp]

/-! ### SaveDocument -/

theorem mem_ancestors_self (p : GoString) : p ∈ ancestors p := by
  simp [ancestors]

theorem length_le_of_mem_ancestors (p a : GoString) (h : a ∈ ancestors p) :
    a.length ≤ p.length := by
  unfold ancestors at h
  rcases List.mem_append.mp h with h1 | h1
  · obtain ⟨i, _, hi⟩ := List.mem_filterMap.mp h1
    split at hi
    · simp only [Option.some.injEq] at hi
      rw [← hi, List.length_take]
      omega
    · simp at hi
  · rw [List.mem_singleton.mp h1]

theorem MkdirAll_eq (fs : FS) (p : GoString) (hb : badName p = false)
    (ha : (ancestors p).any fs.isFile = false) :
    MkdirAll fs p =
      some { fs with dirs := (ancestors p).filter (fun d => !fs.dirs.contains d) ++ fs.dirs } := by
  unfold MkdirAll
  rw [hb, ha]
  rfl

/-- The run of `SaveDocument` for an id whose decimal text has at least four
characters: the directory step, then `os.Create` and the write. -/
theorem SaveDocument_run (CSDir col ext content : GoString) (id : Int) (fs : FS)
    (hl : 4 ≤ (Itoa id).length) :
    SaveDocument CSDir fs id col ext content =
      match Create (if statNotExist fs (shardDir CSDir id col) = true then
          (MkdirAll fs (shardDir CSDir id col)).getD fs else fs)
        (shardDir CSDir id col ++ '/' :: Itoa id ++ ext) with
      | none => Except.error Crash.panic
      | some _ =>
        Except.ok ((if statNotExist fs (shardDir CSDir id col) = true then
          (MkdirAll fs (shardDir CSDir id col)).getD fs else fs).put
            (shardDir CSDir id col ++ '/' :: Itoa id ++ ext) (utf8 content)) := by
  unfold SaveDocument
  rw [shardPath_of_length CSDir col id hl, getPathToID_of_length CSDir col id hl]
  simp only [bind, Except.bind, pure, Except.pure]
  generalize (if statNotExist fs (shardDir CSDir id col) = true then
    (MkdirAll fs (shardDir CSDir id col)).getD fs else fs) = fs1
  cases hC : Create fs1 (shardDir CSDir id col ++ '/' :: Itoa id ++ ext) with
  | none => rfl
  | some fs2 =>
    simp only
    unfold Create at hC
    split at hC
    · simp at hC
    · simp only [Option.some.injEq] at hC
      rw [← hC, writeAt0_put_nil]

theorem Create_some (fs fs2 : FS) (p : GoString) (h : Create fs p = some fs2) :
    badName p = false ∧ fs.isDir p = false ∧ fs.isDir (parentDir p) = true := by
  unfold Create at h
  split at h
  · simp at h
  · rename_i hc
    simp only [Bool.or_eq_true, Bool.not_eq_true', not_or, Bool.not_eq_true,
      Bool.not_eq_false] at hc
    exact ⟨hc.1.1, hc.1.2, hc.2⟩

theorem Create_eq (fs : FS) (p : GoString) (hb : badName p = false) (hd : fs.isDir p = false)
    (hp : fs.isDir (parentDir p) = true) : Create fs p = some (fs.put p []) := by
  unfold Create
  rw [hb, hd, hp]
  rfl

theorem shardDir_length (CSDir col : GoString) (id : Int) : 3 ≤ (shardDir CSDir id col).length := by
  unfold shardDir
  simp only [List.length_append, String.toList, List.length_cons, List.length_nil]
  omega

/-- After the directory step on a store without the shard directory, a path
below the shard directory is a directory only if it was one before. -/
theorem isDir_after_mkdir (fs : FS) (D q : GoString) (hq : D.length < q.length)
    (hd : fs.isDir q = false) :
    FS.isDir { fs with dirs := (ancestors D).filter (fun d => !fs.dirs.contains d) ++ fs.dirs } q =
      false := by
  unfold FS.isDir at hd ⊢
  simp only [Bool.or_eq_false_iff, decide_eq_false_iff_not] at hd ⊢
  refine ⟨hd.1, ?_⟩
  rw [← Bool.not_eq_true]
  intro hc
  have hm : q ∈ (ancestors D).filter (fun d => !fs.dirs.contains d) ++ fs.dirs := by
    simpa using hc
  rcases List.mem_append.mp hm with h1 | h1
  · have := length_le_of_mem_ancestors D q (List.mem_of_mem_filter h1)
    omega
  · have : fs.dirs.contains q = true := by simpa using h1
    rw [this] at hd
    exact absurd hd.2 (by decide)

theorem isDir_self_after_mkdir (fs : FS) (D : GoString) :
    FS.isDir { fs with dirs := (ancestors D).filter (fun d => !fs.dirs.contains d) ++ fs.dirs } D =
      true := by
  unfold FS.isDir
  by_cases hc : fs.dirs.contains D = true
  · have : D ∈ fs.dirs := by simpa using hc
    simp [this]
  · have hm : D ∈ (ancestors D).filter (fun d => !fs.dirs.contains d) :=
      List.mem_filter.mpr ⟨mem_ancestors_self D, by simpa using hc⟩
    have hm2 : D ∈ (ancestors D).filter (fun d => !fs.dirs.contains d) ++ fs.dirs :=
      List.mem_append_left _ hm
    have : ((ancestors D).filter (fun d => !fs.dirs.contains d) ++ fs.dirs).contains D = true := by
      simpa using hm2
    rw [this]
    simp

/-! ### Claims on the path resolver and on retrieval -/

/-- C1: for an id of at least four decimal digits the artifact path
`getPathToID(id, col) + ext` is `CSDir/col/d[0:2]/d[2:4]/d + ext`, both slices
being two characters of the decimal text `d`, and the directory part is the
path `SaveDocument` hands to `MkdirAll`.  A `SaveDocument` into a store that
lacks this directory (and in which it can be made: no parent is a regular
file, the name is accepted) makes it: the directory, absent before, is there
when the save returns, together with its missing parents and nothing else, and
the save does return when the extension has no separator and the file name is
free; into a store that has the directory, `SaveDocument` makes none.  The
paths of two extensions split into the same directory and the file names
`d + e1`, `d + e2`, the stem `d` holding no separator. -/
theorem artifact_path_shape (CSDir col ext : GoString) (id : Int) (h : 1000 ≤ id) :
    ((Itoa id).take 2).length = 2 ∧ (((Itoa id).drop 2).take 2).length = 2 ∧
    Except.map (fun p => p ++ ext) (getPathToID CSDir id col) =
      Except.ok ((CSDir ++ "/".toList ++ col ++ "/".toList ++ (Itoa id).take 2 ++ "/".toList ++
        ((Itoa id).drop 2).take 2) ++ "/".toList ++ Itoa id ++ ext) ∧
    shardPath CSDir id col =
      Except.ok (CSDir ++ "/".toList ++ col ++ "/".toList ++ (Itoa id).take 2 ++ "/".toList ++
        ((Itoa id).drop 2).take 2) ∧
    (∀ (fs : FS) (content : GoString),
      Stat fs (CSDir ++ "/".toList ++ col ++ "/".toList ++ (Itoa id).take 2 ++ "/".toList ++
        ((Itoa id).drop 2).take 2) = StatResult.notExist →
      (ancestors (CSDir ++ "/".toList ++ col ++ "/".toList ++ (Itoa id).take 2 ++ "/".toList ++
        ((Itoa id).drop 2).take 2)).any fs.isFile = false →
      badName (CSDir ++ "/".toList ++ col ++ "/".toList ++ (Itoa id).take 2 ++ "/".toList ++
        ((Itoa id).drop 2).take 2) = false →
      fs.isDir (CSDir ++ "/".toList ++ col ++ "/".toList ++ (Itoa id).take 2 ++ "/".toList ++
        ((Itoa id).drop 2).take 2) = false ∧
      (∀ fs' : FS, SaveDocument CSDir fs id col ext content = Except.ok fs' →
        fs'.isDir (CSDir ++ "/".toList ++ col ++ "/".toList ++ (Itoa id).take 2 ++ "/".toList ++
        ((Itoa id).drop 2).take 2) = true ∧
        fs'.dirs = (ancestors (CSDir ++ "/".toList ++ col ++ "/".toList ++ (Itoa id).take 2 ++ "/".toList ++
        ((Itoa id).drop 2).take 2)).filter (fun d => !fs.dirs.contains d) ++ fs.dirs) ∧
      ('/' ∉ ext →
        badName ((CSDir ++ "/".toList ++ col ++ "/".toList ++ (Itoa id).take 2 ++ "/".toList ++
        ((Itoa id).drop 2).take 2) ++ "/".toList ++ Itoa id ++ ext) = false →
        fs.isDir ((CSDir ++ "/".toList ++ col ++ "/".toList ++ (Itoa id).take 2 ++ "/".toList ++
        ((Itoa id).drop 2).take 2) ++ "/".toList ++ Itoa id ++ ext) = false →
        ∃ fs' : FS, SaveDocument CSDir fs id col ext content = Except.ok fs' ∧
          fs'.isDir (CSDir ++ "/".toList ++ col ++ "/".toList ++ (Itoa id).take 2 ++ "/".toList ++
        ((Itoa id).drop 2).take 2) = true ∧
          fs'.readFile ((CSDir ++ "/".toList ++ col ++ "/".toList ++ (Itoa id).take 2 ++ "/".toList ++
        ((Itoa id).drop 2).take 2) ++ "/".toList ++ Itoa id ++ ext) = some (utf8 content))) ∧
    (∀ (fs fs' : FS) (content : GoString),
      fs.isDir (CSDir ++ "/".toList ++ col ++ "/".toList ++ (Itoa id).take 2 ++ "/".toList ++
        ((Itoa id).drop 2).take 2) = true →
      SaveDocument CSDir fs id col ext content = Except.ok fs' → fs'.dirs = fs.dirs) ∧
    (∀ (fs fs' : FS) (content : GoString), '/' ∉ ext →
      SaveDocument CSDir fs id col ext content = Except.ok fs' →
      fs'.isDir (CSDir ++ "/".toList ++ col ++ "/".toList ++ (Itoa id).take 2 ++ "/".toList ++
        ((Itoa id).drop 2).take 2) = true) ∧
    (∀ e1 e2 : GoString, '/' ∉ e1 → '/' ∉ e2 →
      Except.map (fun p => Split (p ++ e1)) (getPathToID CSDir id col) =
        Except.ok ((CSDir ++ "/".toList ++ col ++ "/".toList ++ (Itoa id).take 2 ++ "/".toList ++
        ((Itoa id).drop 2).take 2) ++ "/".toList, Itoa id ++ e1) ∧
      Except.map (fun p => Split (p ++ e2)) (getPathToID CSDir id col) =
        Except.ok ((CSDir ++ "/".toList ++ col ++ "/".toList ++ (Itoa id).take 2 ++ "/".toList ++
        ((Itoa id).drop 2).take 2) ++ "/".toList, Itoa id ++ e2)) ∧
    '/' ∉ Itoa id := by
  have hl := Itoa_length id h
  have hpath : ∀ e : GoString, shardDir CSDir id col ++ "/".toList ++ Itoa id ++ e =
      shardDir CSDir id col ++ '/' :: Itoa id ++ e := by
    intro e; simp
  have hsplit : ∀ e : GoString, '/' ∉ e →
      Split (shardDir CSDir id col ++ '/' :: Itoa id ++ e) =
        (shardDir CSDir id col ++ "/".toList, Itoa id ++ e) := by
    intro e he
    have : shardDir CSDir id col ++ '/' :: Itoa id ++ e =
        shardDir CSDir id col ++ '/' :: (Itoa id ++ e) := by simp
    rw [this]
    apply Split_child
    intro hm
    rcases List.mem_append.mp hm with h1 | h1
    · exact slash_not_mem_Itoa id h1
    · exact he h1
  have hlong : ∀ e : GoString, (shardDir CSDir id col).length <
      (shardDir CSDir id col ++ '/' :: Itoa id ++ e).length := by
    intro e
    simp only [List.length_append, List.length_cons]
    omega
  show _ ∧ _ ∧ _ = Except.ok (shardDir CSDir id col ++ "/".toList ++ Itoa id ++ ext) ∧
    _ = Except.ok (shardDir CSDir id col) ∧
    (∀ (fs : FS) (content : GoString),
      Stat fs (shardDir CSDir id col) = StatResult.notExist →
      (ancestors (shardDir CSDir id col)).any fs.isFile = false →
      badName (shardDir CSDir id col) = false →
      fs.isDir (shardDir CSDir id col) = false ∧
      (∀ fs' : FS, SaveDocument CSDir fs id col ext content = Except.ok fs' →
        fs'.isDir (shardDir CSDir id col) = true ∧
        fs'.dirs = (ancestors (shardDir CSDir id col)).filter
          (fun d => !fs.dirs.contains d) ++ fs.dirs) ∧
      ('/' ∉ ext →
        badName (shardDir CSDir id col ++ "/".toList ++ Itoa id ++ ext) = false →
        fs.isDir (shardDir CSDir id col ++ "/".toList ++ Itoa id ++ ext) = false →
        ∃ fs' : FS, SaveDocument CSDir fs id col ext content = Except.ok fs' ∧
          fs'.isDir (shardDir CSDir id col) = true ∧
          fs'.readFile (shardDir CSDir id col ++ "/".toList ++ Itoa id ++ ext) =
            some (utf8 content))) ∧
    (∀ (fs fs' : FS) (content : GoString),
      fs.isDir (shardDir CSDir id col) = true →
      SaveDocument CSDir fs id col ext content = Except.ok fs' → fs'.dirs = fs.dirs) ∧
    (∀ (fs fs' : FS) (content : GoString), '/' ∉ ext →
      SaveDocument CSDir fs id col ext content = Except.ok fs' →
      fs'.isDir (shardDir CSDir id col) = true) ∧
    (∀ e1 e2 : GoString, '/' ∉ e1 → '/' ∉ e2 →
      Except.map (fun p => Split (p ++ e1)) (getPathToID CSDir id col) =
        Except.ok (shardDir CSDir id col ++ "/".toList, Itoa id ++ e1) ∧
      Except.map (fun p => Split (p ++ e2)) (getPathToID CSDir id col) =
        Except.ok (shardDir CSDir id col ++ "/".toList, Itoa id ++ e2)) ∧
    '/' ∉ Itoa id
  refine ⟨?_, ?_, ?_, shardPath_eq CSDir col id h, ?_, ?_, ?_, ?_, slash_not_mem_Itoa id⟩
  · simp [List.length_take]; omega
  · simp [List.length_take, List.length_drop]; omega
  · rw [getPathToID_eq CSDir col id h]
    simp [Except.map]
  · intro fs content hst hanc hbad
    obtain ⟨hnd, _⟩ := Stat_notExist fs _ hst
    have hstat : statNotExist fs (shardDir CSDir id col) = true :=
      (statNotExist_iff fs _).mpr hst
    have hrun := SaveDocument_run CSDir col ext content id fs hl
    rw [hstat, if_pos rfl, MkdirAll_eq fs _ hbad hanc] at hrun
    simp only [Option.getD_some] at hrun
    refine ⟨hnd, ?_, ?_⟩
    · intro fs' hs
      rw [hrun] at hs
      split at hs
      · simp at hs
      · simp only [Except.ok.injEq] at hs
        rw [← hs]
        exact ⟨isDir_self_after_mkdir fs _, rfl⟩
    · intro he hbn hdn
      rw [hpath] at hbn hdn ⊢
      have hC := Create_eq _ _ hbn (isDir_after_mkdir fs _ _ (hlong ext) hdn)
        (by rw [parentDir_artifact CSDir col ext id he]; exact isDir_self_after_mkdir fs _)
      rw [hC] at hrun
      exact ⟨_, hrun, isDir_self_after_mkdir fs _, readFile_put_same _ _ _⟩
  · intro fs fs' content hd hs
    rw [SaveDocument_run CSDir col ext content id fs hl, statNotExist_of_isDir fs _ hd] at hs
    simp only [Bool.false_eq_true, if_false] at hs
    split at hs
    · simp at hs
    · simp only [Except.ok.injEq] at hs
      rw [← hs]
      rfl
  · intro fs fs' content he hs
    obtain ⟨fs1, _, _, _, _, hpar, hfs'⟩ :=
      SaveDocument_ok_inv CSDir col ext content id fs fs' hs
    rw [parentDir_artifact CSDir col ext id he] at hpar
    rw [hfs', isDir_put]
    exact hpar
  · intro e1 e2 he1 he2
    rw [getPathToID_eq CSDir col id h]
    simp only [Except.map]
    rw [hsplit e1 he1, hsplit e2 he2]
    exact ⟨rfl, rfl⟩

/-- Witness of C1 at document 1234 of `notes` under the store root `cs`: the
save of a body into the empty store returns and makes `cs/notes/12/34`. -/
theorem artifact_path_shape_witness :
    (1000 : Int) ≤ 1234 ∧
    Except.map (fun p => p ++ ".json".toList) (getPathToID "cs".toList 1234 "notes".toList) =
      Except.ok "cs/notes/12/34/1234.json".toList ∧
    FS.empty.isDir "cs/notes/12/34".toList = false ∧
    SaveDocument "cs".toList FS.empty 1234 "notes".toList ".json".toList "\x7b\x7d".toList =
      Except.ok savedNotes ∧
    savedNotes.isDir "cs/notes/12/34".toList = true ∧
    savedNotes.dirs = (ancestors "cs/notes/12/34".toList).filter
      (fun d => !FS.empty.dirs.contains d) ++ FS.empty.dirs :=
  have hall := artifact_path_shape "cs".toList "notes".toList ".json".toList 1234 (by decide)
  have hnew := hall.2.2.2.2.1 FS.empty "\x7b\x7d".toList (by decide) (by decide) (by decide)
  have hrun : SaveDocument "cs".toList FS.empty 1234 "notes".toList ".json".toList
      "\x7b\x7d".toList = Except.ok savedNotes := by decide
  ⟨by decide, hall.2.2.1, hnew.1, hrun, (hnew.2.1 savedNotes hrun).1, (hnew.2.1 savedNotes hrun).2⟩

/-- C2: after a successful `SaveDocument(id, col, "." + t, s)` for an id of at
least four digits, `CSGet` called with the decimal text of the id, the
collection and the type `t` answers 200 with exactly the bytes of `s`, whatever
the file system held before the save. -/
theorem save_then_CSGet (Require : RequireFn) (CSDir col t s : GoString) (id : Int)
    (fs fs' : FS) (r : Request) (h : 1000 ≤ id) (hmax : id ≤ maxInt)
    (hsave : SaveDocument CSDir fs id col (".".toList ++ t) s = Except.ok fs')
    (hid : Require (commonHeaders Response.empty) r "id".toList = Except.ok (Itoa id))
    (hcol : Require (commonHeaders Response.empty) r "col".toList = Except.ok col)
    (htype : Require (commonHeaders Response.empty) r "type".toList = Except.ok t) :
    ∃ w : Response, CSGet Require CSDir fs' r = Except.ok w ∧ w.status = 200 ∧
      w.body = utf8 s := by
  obtain ⟨fs1, _, _, _, hnd, _, hfs'⟩ :=
    SaveDocument_ok_inv CSDir col (".".toList ++ t) s id fs fs' hsave
  have hrd : fs'.readFile (shardDir CSDir id col ++ '/' :: Itoa id ++ '.' :: t) =
      some (utf8 s) := by
    rw [hfs']
    exact readFile_put_same fs1 _ _
  have hex : fileExists fs' (shardDir CSDir id col ++ '/' :: Itoa id ++ '.' :: t) =
      Except.ok true := by
    apply fileExists_of_file _ _ _ hrd
    rw [hfs', isDir_put]
    exact hnd
  rw [CSGet_eval Require CSDir col t id fs' r h hmax hid hcol htype, hex, hrd]
  refine ⟨_, rfl, ?_, ?_⟩
  · simp only [Response.write]
    unfold typeHeader
    split
    · rfl
    · split <;> rfl
  · simp only [Response.write, typeHeader_body]
    rfl

/-- Witness of C2: `{}` saved as `.json` of document 1234 of `notes` into the
empty file system, then fetched with `type=json`. -/
theorem save_then_CSGet_witness :
    ∃ w : Response, CSGet requireForm "cs".toList savedNotes (csRequest "1234" "notes" "json") =
      Except.ok w ∧ w.status = 200 ∧ w.body = utf8 "\x7b\x7d".toList :=
  save_then_CSGet requireForm "cs".toList "notes".toList "json".toList "\x7b\x7d".toList 1234
    FS.empty savedNotes (csRequest "1234" "notes" "json") (by decide) (by decide) (by decide)
    (by decide) (by decide) (by decide)

/-- The run of `CSGet` when `os.Stat` reports that the file of the selector
does not exist: the status is 400 and no file content is written. -/
theorem CSGet_missing (Require : RequireFn) (CSDir col t : GoString) (id : Int) (fs : FS)
    (r : Request) (h : 1000 ≤ id) (hmax : id ≤ maxInt)
    (hid : Require (commonHeaders Response.empty) r "id".toList = Except.ok (Itoa id))
    (hcol : Require (commonHeaders Response.empty) r "col".toList = Except.ok col)
    (htype : Require (commonHeaders Response.empty) r "type".toList = Except.ok t)
    (hmiss : Stat fs (shardDir CSDir id col ++ '/' :: Itoa id ++ '.' :: t) =
      StatResult.notExist) :
    CSGet Require CSDir fs r =
      Except.ok (httpError (typeHeader (commonHeaders Response.empty) t)
        ("File for id '".toList ++ Itoa id ++ "' does not exist".toList) 400) := by
  rw [CSGet_eval Require CSDir col t id fs r h hmax hid hcol htype,
    fileExists_of_notExist fs _ hmiss]

/-- C7: for an id from 0 to 999 the slice `Itoa(id)[2:4]` is out of range:
`getPathToID`, `SaveDocument` and `DeleteDocument` panic instead of returning
a path. -/
theorem small_id_panics (CSDir col ext content : GoString) (fs : FS) (id : Int)
    (h0 : 0 ≤ id) (h : id < 1000) :
    getPathToID CSDir id col = Except.error Crash.panic ∧
    SaveDocument CSDir fs id col ext content = Except.error Crash.panic ∧
    DeleteDocument CSDir fs id col = Except.error Crash.panic := by
  refine ⟨getPathToID_small CSDir col id h0 h, ?_, ?_⟩
  · unfold SaveDocument
    rw [shardPath_small CSDir col id h0 h]
    rfl
  · unfold DeleteDocument
    rw [getPathToID_small CSDir col id h0 h]

/-- The failing input of C7: document 7 of `notes`. -/
theorem small_id_panics_witness :
    (0 : Int) ≤ 7 ∧ (7 : Int) < 1000 ∧
    getPathToID "cs".toList 7 "notes".toList = Except.error Crash.panic ∧
    SaveDocument "cs".toList FS.empty 7 "notes".toList ".json".toList "\x7b\x7d".toList =
      Except.error Crash.panic ∧
    DeleteDocument "cs".toList FS.empty 7 "notes".toList = Except.error Crash.panic :=
  ⟨by decide, by decide,
    small_id_panics "cs".toList "notes".toList ".json".toList "\x7b\x7d".toList FS.empty 7
      (by decide) (by decide)⟩

/-- C8: for every `CSGet` request with the decimal text of an id of at least
four digits, a collection and a type selector for whose file `os.Stat` reports
that it does not exist, the answer has status 400 and the error message as
body (no file content); 400 is also the status `Get` gives to an invalid
document ID and to an unknown collection, while `Get` answers a document that
does not exist with 404. -/
theorem CSGet_not_found_status {Doc Img : Type} (W : World Doc Img) (CSDir col t p : GoString)
    (id : Int) (fs : FS) (r : Request) (h : 1000 ≤ id) (hmax : id ≤ maxInt)
    (hid : W.Require (commonHeaders Response.empty) r "id".toList = Except.ok (Itoa id))
    (hcol : W.Require (commonHeaders Response.empty) r "col".toList = Except.ok col)
    (htype : W.Require (commonHeaders Response.empty) r "type".toList = Except.ok t)
    (hp : getPathToID CSDir id col = Except.ok p)
    (hmiss : Stat fs (p ++ ".".toList ++ t) = StatResult.notExist) :
    (∃ w : Response, CSGet W.Require CSDir fs r = Except.ok w ∧ w.status = 400 ∧
      w.body = utf8 ("File for id '".toList ++ Itoa id ++ "' does not exist".toList ++
        "\n".toList)) ∧
    (∀ (r2 : Request) (c2 s2 : GoString),
      W.Require (jsonHeaders Response.empty) r2 "col".toList = Except.ok c2 →
      W.Require (jsonHeaders Response.empty) r2 "id".toList = Except.ok s2 →
      Atoi s2 = none → (Get W r2).status = 400) ∧
    (∀ (r2 : Request) (c2 s2 : GoString) (n : Int),
      W.Require (jsonHeaders Response.empty) r2 "col".toList = Except.ok c2 →
      W.Require (jsonHeaders Response.empty) r2 "id".toList = Except.ok s2 →
      Atoi s2 = some n → W.Use c2 = none → (Get W r2).status = 400) ∧
    (∀ (r2 : Request) (c2 s2 : GoString) (n : Int) (dbcol : Collection Doc),
      W.Require (jsonHeaders Response.empty) r2 "col".toList = Except.ok c2 →
      W.Require (jsonHeaders Response.empty) r2 "id".toList = Except.ok s2 →
      Atoi s2 = some n → W.Use c2 = some dbcol → dbcol.Read n = none →
      (Get W r2).status = 404) := by
  have hpe : p = shardDir CSDir id col ++ '/' :: Itoa id := by
    rw [getPathToID_eq CSDir col id h] at hp
    exact (Except.ok.inj hp).symm
  have hmiss' : Stat fs (shardDir CSDir id col ++ '/' :: Itoa id ++ '.' :: t) =
      StatResult.notExist := by
    rw [← hmiss, hpe]
    simp
  refine ⟨⟨_, CSGet_missing W.Require CSDir col t id fs r h hmax hid hcol htype hmiss', rfl, ?_⟩,
    ?_, ?_, ?_⟩
  · simp only [httpError, typeHeader_body, Response.setHeader]
    rfl
  · intro r2 c2 s2 h1 h2 h3
    simp only [Get, h1, h2, h3, httpError]
  · intro r2 c2 s2 n h1 h2 h3 h4
    simp only [Get, h1, h2, h3, h4, httpError]
  · intro r2 c2 s2 n dbcol h1 h2 h3 h4 h5
    simp only [Get, h1, h2, h3, h4, h5, httpError]

/-- The failing input of C8: `type=json` of document 1234 of `notes` in an
empty store; `Get` with the id `12x4`, with the collection `nowhere`, and with
the id 5678 that `notes` does not hold. -/
theorem CSGet_not_found_status_witness :
    (∃ w : Response, CSGet demoWorld.Require "cs".toList FS.empty
        (csRequest "1234" "notes" "json") = Except.ok w ∧ w.status = 400 ∧
      w.body = utf8 ("File for id '".toList ++ Itoa 1234 ++ "' does not exist".toList ++
        "\n".toList)) ∧
    (Get demoWorld (getRequest "12x4" "notes")).status = 400 ∧
    (Get demoWorld (getRequest "1234" "nowhere")).status = 400 ∧
    (Get demoWorld (getRequest "5678" "notes")).status = 404 :=
  have hall := CSGet_not_found_status demoWorld "cs".toList "notes".toList "json".toList
    "cs/notes/12/34/1234".toList 1234 FS.empty (csRequest "1234" "notes" "json")
    (by decide) (by decide) (by decide) (by decide) (by decide) (by decide) (by decide)
  ⟨hall.1,
    hall.2.1 (getRequest "12x4" "notes") "notes".toList "12x4".toList (by decide) (by decide)
      (by decide),
    hall.2.2.1 (getRequest "1234" "nowhere") "nowhere".toList "1234".toList 1234 (by decide)
      (by decide) (by decide) rfl,
    hall.2.2.2 (getRequest "5678" "notes") "notes".toList "5678".toList 5678 demoCollection
      (by decide) (by decide) (by decide) rfl (by decide)⟩

theorem extScan_no_slash : ∀ (rev acc : GoString), '/' ∉ acc → '/' ∉ extScan rev acc := by
  intro rev
  induction rev with
  | nil => intro acc _; simp [extScan]
  | cons c cs ih =>
    intro acc hacc
    simp only [extScan]
    split
    · simp
    · rename_i hc
      split
      · intro hm
        rcases List.mem_cons.mp hm with h1 | h1
        · exact hc h1.symm
        · exact hacc h1
      · apply ih
        intro hm
        rcases List.mem_cons.mp hm with h1 | h1
        · exact hc h1.symm
        · exact hacc h1

theorem Ext_no_slash (path : GoString) : '/' ∉ Ext path :=
  extScan_no_slash path.reverse [] (by simp)

theorem SaveDocument_eval (CSDir col ext content : GoString) (id : Int) (fs : FS)
    (hl : 4 ≤ (Itoa id).length) (he : '/' ∉ ext)
    (hdir : fs.isDir (shardDir CSDir id col) = true)
    (hb : badName (docPath CSDir id col ++ ext) = false)
    (hnd : fs.isDir (docPath CSDir id col ++ ext) = false) :
    SaveDocument CSDir fs id col ext content =
      Except.ok (fs.put (docPath CSDir id col ++ ext) (utf8 content)) := by
  unfold docPath at hb hnd ⊢
  rw [SaveDocument_run CSDir col ext content id fs hl, statNotExist_of_isDir fs _ hdir]
  simp only [Bool.false_eq_true, if_false]
  rw [Create_eq fs _ hb hnd (by rw [parentDir_artifact CSDir col ext id he]; exact hdir)]

/-! ### Claims on DeleteDocument and Update -/

/-- C3: in the collection `a\b` the glob of `DeleteDocument` reads the
backslash as an escape, matches nothing, and the four artifacts that an insert
saved are all still there after `DeleteDocument` has returned; in the
collection `a[b` the glob is malformed and `DeleteDocument` panics. -/
theorem delete_keeps_escaped_collection :
    Except.map Prod.snd (Insert openWorld "cs".toList FS.empty
        (uploadRequest "a\\b" "photo.jpg" "image/jpeg" tinyJpeg)) = Except.ok (storeOf "a\\b") ∧
    DeleteDocument "cs".toList (storeOf "a\\b") 1234 "a\\b".toList = Except.ok (storeOf "a\\b") ∧
    fileExists (storeOf "a\\b") "cs/a\\b/12/34/1234.json".toList = Except.ok true ∧
    fileExists (storeOf "a\\b") "cs/a\\b/12/34/1234.jpg".toList = Except.ok true ∧
    fileExists (storeOf "a\\b") "cs/a\\b/12/34/1234.meta".toList = Except.ok true ∧
    fileExists (storeOf "a\\b") "cs/a\\b/12/34/1234.preview.jpg".toList = Except.ok true ∧
    DeleteDocument "cs".toList (storeOf "a[b") 1234 "a[b".toList = Except.error Crash.panic := by
  decide!

/-- C10: `DeleteDocument(1234, "notes")` removes the body of document 12345 of
the same collection: both ids share the shard directory `12/34` and the glob
`.../1234*` matches `12345.json`. -/
theorem delete_takes_longer_id :
    getPathToID "cs".toList 12345 "notes".toList = Except.ok "cs/notes/12/34/12345".toList ∧
    twoDocs.readFile "cs/notes/12/34/12345.json".toList = some (utf8 "\x7b\"n\":2\x7d".toList) ∧
    Except.map (fun fs => fs.readFile "cs/notes/12/34/12345.json".toList)
      (DeleteDocument "cs".toList twoDocs 1234 "notes".toList) = Except.ok none := by
  decide!

/-- C4: in the collection `a\b` the purge of `Update` matches nothing, so after
the update the attachment, the metadata and the preview of document 1234 are
still there beside the new body. -/
theorem update_keeps_escaped_collection :
    Except.map
        (fun x => (x.2.readFile "cs/a\\b/12/34/1234.json".toList,
          fileExists x.2 "cs/a\\b/12/34/1234.jpg".toList,
          fileExists x.2 "cs/a\\b/12/34/1234.meta".toList,
          fileExists x.2 "cs/a\\b/12/34/1234.preview.jpg".toList))
        (Update openWorld "cs".toList (storeOf "a\\b")
          (updateRequest "a\\b" "1234" "\x7b\"text\":\"new\"\x7d")) =
      Except.ok (some (utf8 "\x7b\"text\":\"new\"\x7d".toList), Except.ok true, Except.ok true,
        Except.ok true) := by
  decide!

/-! ### Insert -/

theorem status_plainHeaders : (plainHeaders Response.empty).status = 200 := rfl

/-- The run of `Insert` once the collection insert has succeeded. -/
theorem Insert_eval {Doc Img : Type} (W : World Doc Img) (CSDir col doc : GoString) (id : Int)
    (fs : FS) (r : Request) (jsonDoc : Doc) (dbcol : Collection Doc)
    (hrc : W.Require (plainHeaders Response.empty) r "col".toList = Except.ok col)
    (hrd : requestDoc W.Require (plainHeaders Response.empty) r = Except.ok doc)
    (hjson : W.unmarshal doc = some jsonDoc) (huse : W.Use col = some dbcol)
    (hins : dbcol.Insert jsonDoc = Except.ok id) :
    Insert W CSDir fs r =
      match SaveDocument CSDir fs id col ".json".toList doc with
      | Except.error e => Except.error e
      | Except.ok fs1 =>
        match r.file with
        | none => Except.ok (created (plainHeaders Response.empty) id, fs1)
        | some h => insertFile W CSDir (plainHeaders Response.empty) fs1 id col h := by
  unfold Insert
  simp only [hrc, hrd, hjson, huse, hins]

theorem extScan_dot : ∀ (rev acc : GoString), '.' ∉ acc →
    extScan rev acc = [] ∨ ∃ t, extScan rev acc = '.' :: t ∧ '.' ∉ t := by
  intro rev
  induction rev with
  | nil => intro acc _; left; rfl
  | cons c cs ih =>
    intro acc hacc
    simp only [extScan]
    split
    · left; rfl
    · split
      · rename_i hc
        right
        exact ⟨acc, by rw [hc], hacc⟩
      · rename_i hc
        apply ih
        intro hm
        rcases List.mem_cons.mp hm with h1 | h1
        · exact hc h1.symm
        · exact hacc h1

theorem Ext_ne_preview (path : GoString) : Ext path ≠ ".preview.jpg".toList := by
  intro h
  rcases extScan_dot path.reverse [] (by simp) with h1 | ⟨t, h1, h2⟩
  · unfold Ext at h
    rw [h1] at h
    revert h
    decide
  · unfold Ext at h
    rw [h1] at h
    have ht : t = "preview.jpg".toList := List.tail_eq_of_cons_eq h
    rw [ht] at h2
    revert h2
    decide

theorem readFile_writeAt0_ne (fs : FS) (p q : GoString) (d : Bytes) (h : q ≠ p) :
    (writeAt0 fs p d).readFile q = fs.readFile q := by
  unfold writeAt0
  exact readFile_put_ne fs p q _ h

theorem readFile_writeAt0_same (fs : FS) (p : GoString) (d : Bytes) :
    (writeAt0 fs p d).readFile p = some (d ++ ((fs.readFile p).getD []).drop d.length) := by
  unfold writeAt0
  exact readFile_put_same fs p _

theorem OpenFile_some (fs fs4 : FS) (p : GoString) (h : OpenFile fs p = some fs4) :
    fs4.dirs = fs.dirs ∧ fs.isDir p = false ∧ (∀ q, q ≠ p → fs4.readFile q = fs.readFile q) ∧
      (fs4.readFile p).getD [] = (fs.readFile p).getD [] := by
  unfold OpenFile at h
  split at h
  · simp at h
  · rename_i hc
    simp only [Bool.or_eq_true, Bool.not_eq_true', not_or, Bool.not_eq_true] at hc
    split at h
    · simp only [Option.some.injEq] at h
      subst h
      exact ⟨rfl, hc.1.2, fun _ _ => rfl, rfl⟩
    · rename_i hf
      simp only [Option.some.injEq] at h
      subst h
      refine ⟨rfl, hc.1.2, fun q hq => readFile_put_ne fs p q _ hq, ?_⟩
      rw [readFile_put_same]
      have : fs.readFile p = none := by
        unfold FS.isFile at hf
        unfold FS.readFile
        cases hl : List.lookup p fs.files with
        | none => rfl
        | some v => rw [hl] at hf; simp at hf
      rw [this]
      rfl

theorem SaveDocument_readFile_ne (CSDir col ext content : GoString) (id : Int) (fs fs' : FS)
    (hs : SaveDocument CSDir fs id col ext content = Except.ok fs') (e2 : GoString)
    (hne : e2 ≠ ext) :
    fs'.readFile (docPath CSDir id col ++ e2) = fs.readFile (docPath CSDir id col ++ e2) := by
  obtain ⟨fs1, hfiles, _, _, _, _, hfs'⟩ :=
    SaveDocument_ok_inv CSDir col ext content id fs fs' hs
  rw [hfs']
  unfold docPath
  rw [readFile_put_ne _ _ _ _ (fun hq => hne (List.append_cancel_left hq))]
  unfold FS.readFile
  rw [hfiles]

/-- What a `CreatePreview` that returns has done. -/
theorem CreatePreview_ok {Doc Img : Type} (W : World Doc Img) (CSDir col : GoString) (id : Int)
    (fs fs2 : FS) (file st : Stream) (hl : 4 ≤ (Itoa id).length)
    (h : CreatePreview W CSDir fs id col file = Except.ok (fs2, st)) :
    ∃ (img : Img) (n : Nat), W.jpegDecode file.unread = some (img, n) ∧
      st = { file with pos := file.pos + n, closed := true } ∧
      fs.isDir (docPath CSDir id col ++ ".preview.jpg".toList) = false ∧
      fs.isDir (shardDir CSDir id col) = true ∧
      fs2 = fs.put (docPath CSDir id col ++ ".preview.jpg".toList)
        (W.jpegEncode (W.resize 150 0 img)) := by
  unfold CreatePreview at h
  cases hd : W.jpegDecode file.unread with
  | none => rw [hd] at h; simp at h
  | some x =>
    obtain ⟨img, n⟩ := x
    rw [hd] at h
    simp only [getPathToID_of_length CSDir col id hl] at h
    cases hC : Create fs (shardDir CSDir id col ++ '/' :: Itoa id ++ ".preview.jpg".toList) with
    | none => rw [hC] at h; simp at h
    | some fsc =>
      rw [hC] at h
      simp only [Except.ok.injEq, Prod.mk.injEq] at h
      unfold Create at hC
      split at hC
      · simp at hC
      · rename_i hc
        simp only [Bool.or_eq_true, Bool.not_eq_true', not_or, Bool.not_eq_true,
          Bool.not_eq_false] at hc
        simp only [Option.some.injEq] at hC
        rw [parentDir_artifact CSDir col _ id (by decide)] at hc
        refine ⟨img, n, rfl, h.2.symm, hc.1.2, hc.2, ?_⟩
        rw [← h.1, ← hC, writeAt0_put_nil]
        rfl

/-- The run of `CreatePreview` when the stream decodes and the preview file can
be created: the file holds the encoded resized image, the stream is read and
closed. -/
theorem CreatePreview_eval {Doc Img : Type} (W : World Doc Img) (CSDir col : GoString) (id : Int)
    (fs : FS) (file : Stream) (img : Img) (n : Nat) (hl : 4 ≤ (Itoa id).length)
    (hdec : W.jpegDecode file.unread = some (img, n))
    (hb : badName (docPath CSDir id col ++ ".preview.jpg".toList) = false)
    (hnd : fs.isDir (docPath CSDir id col ++ ".preview.jpg".toList) = false)
    (hdir : fs.isDir (shardDir CSDir id col) = true) :
    CreatePreview W CSDir fs id col file =
      Except.ok (fs.put (docPath CSDir id col ++ ".preview.jpg".toList)
        (W.jpegEncode (W.resize 150 0 img)),
        { file with pos := file.pos + n, closed := true }) := by
  unfold docPath at hb hnd ⊢
  unfold CreatePreview
  rw [hdec]
  simp only [getPathToID_of_length CSDir col id hl]
  rw [Create_eq fs _ hb hnd
    (by rw [parentDir_artifact CSDir col _ id (by decide)]; exact hdir)]
  simp only [writeAt0_put_nil]

theorem OpenFile_ne_none (fs : FS) (p : GoString) (hb : badName p = false)
    (hd : fs.isDir p = false) (hp : fs.isDir (parentDir p) = true) :
    ∃ fs4, OpenFile fs p = some fs4 := by
  unfold OpenFile
  rw [hb, hd, hp]
  simp only [Bool.or_self, Bool.not_true, Bool.false_eq_true, if_false]
  split
  · exact ⟨_, rfl⟩
  · exact ⟨_, rfl⟩

/-- What an `insertFile` that ends with status 201 has done. -/
theorem insertFile_created {Doc Img : Type} (W : World Doc Img) (CSDir col : GoString) (id : Int)
    (w resp : Response) (fs1 fs' : FS) (h : Upload) (hl : 4 ≤ (Itoa id).length)
    (hw : w.status = 200) (hrun : insertFile W CSDir w fs1 id col h = Except.ok (resp, fs'))
    (hok : resp.status = 201) :
    ∃ (ct : GoString) (rest : List GoString) (filemeta : GoString) (fs2 fs3 fs4 : FS)
      (st : Stream),
      h.ContentType = ct :: rest ∧
      W.marshalMeta { Id := id, Filename := h.Filename, Size := h.Size, Filetype := ct } =
        some filemeta ∧
      (if ct = "image/jpeg".toList then
          CreatePreview W CSDir fs1 id col
            { data := h.data, pos := 0, closed := false, onDisk := h.onDisk }
        else Except.ok (fs1, { data := h.data, pos := 0, closed := false, onDisk := h.onDisk })) =
        Except.ok (fs2, st) ∧
      SaveDocument CSDir fs2 id col ".meta".toList filemeta = Except.ok fs3 ∧
      OpenFile fs3 (docPath CSDir id col ++ Ext h.Filename) = some fs4 ∧
      fs' = writeAt0 fs4 (docPath CSDir id col ++ Ext h.Filename) st.unread ∧
      resp = created w id := by
  unfold insertFile at hrun
  cases hct : h.ContentType with
  | nil => rw [hct] at hrun; simp at hrun
  | cons ct rest =>
    rw [hct] at hrun
    simp only at hrun
    cases hmm : W.marshalMeta { Id := id, Filename := h.Filename, Size := h.Size, Filetype := ct } with
    | none =>
      rw [hmm] at hrun
      simp only [Except.ok.injEq, Prod.mk.injEq] at hrun
      rw [← hrun.1, hw] at hok
      exact absurd hok (by decide)
    | some filemeta =>
      rw [hmm] at hrun
      simp only at hrun
      generalize hprev : (if ct = "image/jpeg".toList then
          CreatePreview W CSDir fs1 id col
            { data := h.data, pos := 0, closed := false, onDisk := h.onDisk }
        else Except.ok (fs1, { data := h.data, pos := 0, closed := false, onDisk := h.onDisk })) =
        prev at hrun
      cases prev with
      | error e => simp at hrun
      | ok x =>
        obtain ⟨fs2, st⟩ := x
        simp only at hrun
        cases hsv : SaveDocument CSDir fs2 id col ".meta".toList filemeta with
        | error e => rw [hsv] at hrun; simp at hrun
        | ok fs3 =>
          rw [hsv] at hrun
          simp only [getPathToID_of_length CSDir col id hl] at hrun
          cases hop : OpenFile fs3 (shardDir CSDir id col ++ '/' :: Itoa id ++ Ext h.Filename) with
          | none =>
            rw [hop] at hrun
            simp only [Except.ok.injEq, Prod.mk.injEq] at hrun
            rw [← hrun.1, hw] at hok
            exact absurd hok (by decide)
          | some fs4 =>
            rw [hop] at hrun
            simp only [Except.ok.injEq, Prod.mk.injEq] at hrun
            exact ⟨ct, rest, filemeta, fs2, fs3, fs4, st, rfl, hmm, hprev, hsv, hop,
              hrun.2.symm, hrun.1.symm⟩

theorem isDir_congr (fs fs' : FS) (p : GoString) (h : fs'.dirs = fs.dirs) :
    fs'.isDir p = fs.isDir p := by
  unfold FS.isDir
  rw [h]

theorem unread_fresh (data : Bytes) (onDisk : Bool) :
    Stream.unread { data := data, pos := 0, closed := false, onDisk := onDisk } = data := by
  simp [Stream.unread]

theorem SaveDocument_dirs_of_isDir (CSDir col ext content : GoString) (id : Int) (fs fs' : FS)
    (hs : SaveDocument CSDir fs id col ext content = Except.ok fs')
    (hdir : fs.isDir (shardDir CSDir id col) = true) : fs'.dirs = fs.dirs := by
  obtain ⟨fs1, _, hor, _, _, _, hfs'⟩ := SaveDocument_ok_inv CSDir col ext content id fs fs' hs
  rw [hfs']
  rcases hor with h1 | ⟨h1, _⟩
  · rw [h1]; rfl
  · rw [statNotExist_of_isDir fs _ hdir] at h1
    exact absurd h1 (by decide)

theorem SaveDocument_isDir_shard (CSDir col ext content : GoString) (id : Int) (fs fs' : FS)
    (he : '/' ∉ ext) (hs : SaveDocument CSDir fs id col ext content = Except.ok fs') :
    fs'.isDir (shardDir CSDir id col) = true := by
  obtain ⟨fs1, _, _, _, _, hpar, hfs'⟩ := SaveDocument_ok_inv CSDir col ext content id fs fs' hs
  rw [parentDir_artifact CSDir col ext id he] at hpar
  rw [hfs', isDir_put]
  exact hpar

/-- C9: on an `Insert` whose collection insert yields an id.  When the handler
ends with status 201, the preview file `getPathToID(id, col) + ".preview.jpg"`
holds the resized image that `CreatePreview` wrote into the store left by the
save of the body, exactly when a file was uploaded whose first declared
content type is the string `image/jpeg`; in every other case (no file, or
another content type) the preview path is left as it was.  And an insert of a
file declared `image/jpeg` that decodes does end with status 201 and with the
preview file, whatever the preview path held before, once the body is saved
and the three further files can be created. -/
theorem preview_iff_jpeg {Doc Img : Type} (W : World Doc Img) (CSDir col doc : GoString)
    (id : Int) (fs : FS) (r : Request) (jsonDoc : Doc) (dbcol : Collection Doc)
    (hrc : W.Require (plainHeaders Response.empty) r "col".toList = Except.ok col)
    (hrd : requestDoc W.Require (plainHeaders Response.empty) r = Except.ok doc)
    (hjson : W.unmarshal doc = some jsonDoc) (huse : W.Use col = some dbcol)
    (hins : dbcol.Insert jsonDoc = Except.ok id) :
    (∀ (resp : Response) (fs' : FS), Insert W CSDir fs r = Except.ok (resp, fs') →
      resp.status = 201 →
      ∃ (p : GoString) (fs1 : FS), getPathToID CSDir id col = Except.ok p ∧
        SaveDocument CSDir fs id col ".json".toList doc = Except.ok fs1 ∧
        ((∃ h : Upload, r.file = some h ∧ h.ContentType.head? = some "image/jpeg".toList) →
          ∃ (h : Upload) (img : Img) (n : Nat), r.file = some h ∧
            W.jpegDecode h.data = some (img, n) ∧
            CreatePreview W CSDir fs1 id col
              { data := h.data, pos := 0, closed := false, onDisk := h.onDisk } =
              Except.ok (fs1.put (p ++ ".preview.jpg".toList)
                (W.jpegEncode (W.resize 150 0 img)),
                { data := h.data, pos := n, closed := true, onDisk := h.onDisk }) ∧
            fs'.readFile (p ++ ".preview.jpg".toList) =
              some (W.jpegEncode (W.resize 150 0 img)) ∧
            fileExists fs' (p ++ ".preview.jpg".toList) = Except.ok true) ∧
        (¬ (∃ h : Upload, r.file = some h ∧ h.ContentType.head? = some "image/jpeg".toList) →
          fs'.readFile (p ++ ".preview.jpg".toList) =
            fs.readFile (p ++ ".preview.jpg".toList))) ∧
    (∀ (h : Upload) (rest : List GoString) (img : Img) (n : Nat) (filemeta p : GoString)
      (fs1 : FS), r.file = some h → h.ContentType = "image/jpeg".toList :: rest →
      W.jpegDecode h.data = some (img, n) →
      W.marshalMeta
        { Id := id, Filename := h.Filename, Size := h.Size, Filetype := "image/jpeg".toList } =
        some filemeta →
      getPathToID CSDir id col = Except.ok p →
      SaveDocument CSDir fs id col ".json".toList doc = Except.ok fs1 →
      (∀ ext ∈ [".preview.jpg".toList, ".meta".toList, Ext h.Filename],
        badName (p ++ ext) = false ∧ fs1.isDir (p ++ ext) = false) →
      ∃ fs' : FS, Insert W CSDir fs r = Except.ok (created (plainHeaders Response.empty) id, fs') ∧
        CreatePreview W CSDir fs1 id col
          { data := h.data, pos := 0, closed := false, onDisk := h.onDisk } =
          Except.ok (fs1.put (p ++ ".preview.jpg".toList) (W.jpegEncode (W.resize 150 0 img)),
            { data := h.data, pos := n, closed := true, onDisk := h.onDisk }) ∧
        fs'.readFile (p ++ ".preview.jpg".toList) = some (W.jpegEncode (W.resize 150 0 img)) ∧
        fileExists fs' (p ++ ".preview.jpg".toList) = Except.ok true) := by
  have hev := Insert_eval W CSDir col doc id fs r jsonDoc dbcol hrc hrd hjson huse hins
  constructor
  · intro resp fs' hrun hok
    rw [hev] at hrun
    cases hsv : SaveDocument CSDir fs id col ".json".toList doc with
    | error e => rw [hsv] at hrun; simp at hrun
    | ok fs1 =>
      rw [hsv] at hrun
      simp only at hrun
      have hl := SaveDocument_ok_length CSDir col _ doc id fs fs1 hsv
      have hbody := SaveDocument_readFile_ne CSDir col _ doc id fs fs1 hsv ".preview.jpg".toList
        (by decide)
      refine ⟨docPath CSDir id col, fs1, getPathToID_of_length CSDir col id hl, rfl, ?_⟩
      cases hf : r.file with
      | none =>
        rw [hf] at hrun
        simp only [Except.ok.injEq, Prod.mk.injEq] at hrun
        constructor
        · rintro ⟨h, hh, _⟩
          simp at hh
        · intro _
          rw [← hrun.2]
          exact hbody
      | some h =>
        rw [hf] at hrun
        simp only at hrun
        obtain ⟨ct, rest, filemeta, fs2, fs3, fs4, st, hct, _, hprev, hmeta, hop, hfs', _⟩ :=
          insertFile_created W CSDir col id _ resp fs1 fs' h hl status_plainHeaders hrun hok
        obtain ⟨hdirs4, _, hread4, _⟩ := OpenFile_some fs3 fs4 _ hop
        have hne : docPath CSDir id col ++ ".preview.jpg".toList ≠
            docPath CSDir id col ++ Ext h.Filename :=
          fun hq => Ext_ne_preview h.Filename (List.append_cancel_left hq).symm
        have hchain : fs'.readFile (docPath CSDir id col ++ ".preview.jpg".toList) =
            fs2.readFile (docPath CSDir id col ++ ".preview.jpg".toList) := by
          rw [hfs', readFile_writeAt0_ne _ _ _ _ hne, hread4 _ hne]
          exact SaveDocument_readFile_ne CSDir col _ filemeta id fs2 fs3 hmeta _ (by decide)
        by_cases hj : ct = "image/jpeg".toList
        · rw [if_pos hj] at hprev
          obtain ⟨img, n, hdec, hst, hnd, hdir, hfs2⟩ :=
            CreatePreview_ok W CSDir col id fs1 fs2 _ st hl hprev
          rw [unread_fresh] at hdec
          have hrd2 : fs'.readFile (docPath CSDir id col ++ ".preview.jpg".toList) =
              some (W.jpegEncode (W.resize 150 0 img)) := by
            rw [hchain, hfs2]
            exact readFile_put_same _ _ _
          constructor
          · intro _
            refine ⟨h, img, n, rfl, hdec, ?_, hrd2, ?_⟩
            · rw [hprev, hfs2, hst]
              simp
            · apply fileExists_of_file _ _ _ hrd2
              have hd2 : fs2.isDir (shardDir CSDir id col) = true := by
                rw [hfs2, isDir_put]
                exact hdir
              have hdirs3 := SaveDocument_dirs_of_isDir CSDir col _ filemeta id fs2 fs3 hmeta hd2
              have hd' : fs'.dirs = fs1.dirs := by
                rw [hfs']
                show fs4.dirs = fs1.dirs
                rw [hdirs4, hdirs3, hfs2]
                rfl
              rw [isDir_congr fs1 fs' _ hd']
              exact hnd
          · intro hno
            exact absurd ⟨h, rfl, by rw [hct, hj]; rfl⟩ hno
        · rw [if_neg hj] at hprev
          simp only [Except.ok.injEq, Prod.mk.injEq] at hprev
          constructor
          · rintro ⟨h2, hh, hhd⟩
            simp only [Option.some.injEq] at hh
            subst hh
            rw [hct] at hhd
            simp only [List.head?_cons, Option.some.injEq] at hhd
            exact absurd hhd hj
          · intro _
            rw [hchain, ← hprev.1]
            exact hbody
  · intro h rest img n filemeta p fs1 hf hct hdec hmm hp hsv hq
    have hl := SaveDocument_ok_length CSDir col _ doc id fs fs1 hsv
    have hpe : p = docPath CSDir id col := by
      rw [getPathToID_of_length CSDir col id hl] at hp
      exact (Except.ok.inj hp).symm
    subst hpe
    obtain ⟨hb1, hd1⟩ := hq ".preview.jpg".toList (by simp)
    obtain ⟨hb2, hd2⟩ := hq ".meta".toList (by simp)
    obtain ⟨hb3, hd3⟩ := hq (Ext h.Filename) (by simp)
    have hdir1 := SaveDocument_isDir_shard CSDir col _ doc id fs fs1 (by decide) hsv
    have hcp := CreatePreview_eval W CSDir col id fs1
      { data := h.data, pos := 0, closed := false, onDisk := h.onDisk } img n hl
      (by rw [unread_fresh]; exact hdec) hb1 hd1 hdir1
    simp only [Nat.zero_add] at hcp
    have hmeta := SaveDocument_eval CSDir col ".meta".toList filemeta id
      (fs1.put (docPath CSDir id col ++ ".preview.jpg".toList)
        (W.jpegEncode (W.resize 150 0 img))) hl (by decide)
      (by rw [isDir_put]; exact hdir1) hb2 (by rw [isDir_put]; exact hd2)
    obtain ⟨fs4, hop⟩ := OpenFile_ne_none
      (((fs1.put (docPath CSDir id col ++ ".preview.jpg".toList)
        (W.jpegEncode (W.resize 150 0 img))).put (docPath CSDir id col ++ ".meta".toList)
        (utf8 filemeta))) (docPath CSDir id col ++ Ext h.Filename) hb3
      (by rw [isDir_put, isDir_put]; exact hd3)
      (by
        unfold docPath
        rw [parentDir_artifact CSDir col _ id (Ext_no_slash h.Filename), isDir_put, isDir_put]
        exact hdir1)
    obtain ⟨hdirs4, _, hread4, _⟩ := OpenFile_some _ fs4 _ hop
    have hne : docPath CSDir id col ++ ".preview.jpg".toList ≠
        docPath CSDir id col ++ Ext h.Filename :=
      fun hq => Ext_ne_preview h.Filename (List.append_cancel_left hq).symm
    have hrun : Insert W CSDir fs r = Except.ok (created (plainHeaders Response.empty) id,
        writeAt0 fs4 (docPath CSDir id col ++ Ext h.Filename)
          (Stream.unread { data := h.data, pos := n, closed := true, onDisk := h.onDisk })) := by
      rw [hev, hsv, hf]
      simp only
      unfold insertFile
      simp only [hct, hmm, if_true, hcp, hmeta, getPathToID_of_length CSDir col id hl]
      have hop2 : OpenFile
          ((fs1.put (docPath CSDir id col ++ ".preview.jpg".toList)
            (W.jpegEncode (W.resize 150 0 img))).put (docPath CSDir id col ++ ".meta".toList)
            (utf8 filemeta)) (shardDir CSDir id col ++ '/' :: Itoa id ++ Ext h.Filename) =
          some fs4 := hop
      rw [hop2]
      rfl
    have hrd2 : (writeAt0 fs4 (docPath CSDir id col ++ Ext h.Filename)
        (Stream.unread { data := h.data, pos := n, closed := true, onDisk := h.onDisk })).readFile
        (docPath CSDir id col ++ ".preview.jpg".toList) =
        some (W.jpegEncode (W.resize 150 0 img)) := by
      rw [readFile_writeAt0_ne _ _ _ _ hne, hread4 _ hne,
        readFile_put_ne _ _ _ _ (fun hq => by
          have := List.append_cancel_left hq
          revert this
          decide)]
      exact readFile_put_same _ _ _
    refine ⟨_, hrun, hcp, hrd2, ?_⟩
    apply fileExists_of_file _ _ _ hrd2
    have hd' : (writeAt0 fs4 (docPath CSDir id col ++ Ext h.Filename)
        (Stream.unread { data := h.data, pos := n, closed := true, onDisk := h.onDisk })).dirs =
        fs1.dirs := by
      show fs4.dirs = fs1.dirs
      rw [hdirs4]
      rfl
    rw [isDir_congr fs1 _ _ hd']
    exact hd1

/-- Witness of C9: the insert of `tinyJpeg` as `photo.jpg`, declared
`image/jpeg`, into `notes` of the empty store, which holds no preview file: the
insert ends with status 201 and the preview file is there. -/
theorem preview_iff_jpeg_witness :
    FS.empty.readFile "cs/notes/12/34/1234.preview.jpg".toList = none ∧
    Insert demoWorld "cs".toList FS.empty
        (uploadRequest "notes" "photo.jpg" "image/jpeg" tinyJpeg) =
      Except.ok (created (plainHeaders Response.empty) 1234, storeOf "notes") ∧
    (storeOf "notes").readFile "cs/notes/12/34/1234.preview.jpg".toList =
      some [0xFF, 0xD8, 0xFF, 0xD9] ∧
    (∃ fs' : FS, Insert demoWorld "cs".toList FS.empty
        (uploadRequest "notes" "photo.jpg" "image/jpeg" tinyJpeg) =
        Except.ok (created (plainHeaders Response.empty) 1234, fs') ∧
      CreatePreview demoWorld "cs".toList bodyOnly 1234 "notes".toList
        { data := tinyJpeg, pos := 0, closed := false, onDisk := false } =
        Except.ok (bodyOnly.put ("cs/notes/12/34/1234".toList ++ ".preview.jpg".toList)
          (demoWorld.jpegEncode (demoWorld.resize 150 0 tinyJpeg)),
          { data := tinyJpeg, pos := 6, closed := true, onDisk := false }) ∧
      fs'.readFile ("cs/notes/12/34/1234".toList ++ ".preview.jpg".toList) =
        some (demoWorld.jpegEncode (demoWorld.resize 150 0 tinyJpeg)) ∧
      fileExists fs' ("cs/notes/12/34/1234".toList ++ ".preview.jpg".toList) = Except.ok true) :=
  have hall := preview_iff_jpeg demoWorld "cs".toList "notes".toList
    "\x7b\"text\":\"hi\"\x7d".toList 1234 FS.empty
    (uploadRequest "notes" "photo.jpg" "image/jpeg" tinyJpeg)
    "\x7b\"text\":\"hi\"\x7d".toList demoCollection
    (by decide) (by decide) (by decide) rfl (by decide)
  ⟨by decide, by decide!, by decide,
    hall.2
      (Upload.mk "photo.jpg".toList 6 ["image/jpeg".toList] tinyJpeg false)
      [] tinyJpeg 6
      ("\x7b\"id\":1234,\"filename\":\"photo.jpg\",\"size\":6," ++
        "\"filetype\":\"image/jpeg\"\x7d").toList
      "cs/notes/12/34/1234".toList bodyOnly
      (by decide) (by decide) (by decide) (by decide) (by decide) (by decide) (by decide)⟩

/-- On a successful `Insert` of a file declared `image/jpeg`, the attachment
file starts with what the JPEG decoder left unread of the upload: nothing when
the part was spooled to disk (the stream is closed), otherwise the upload
without its first `n` bytes, `n` being what the decoder read. -/
theorem jpeg_attachment_content {Doc Img : Type} (W : World Doc Img) (CSDir col doc : GoString)
    (id : Int) (fs fs' : FS) (r : Request) (resp : Response) (jsonDoc : Doc)
    (dbcol : Collection Doc) (h : Upload)
    (hrc : W.Require (plainHeaders Response.empty) r "col".toList = Except.ok col)
    (hrd : requestDoc W.Require (plainHeaders Response.empty) r = Except.ok doc)
    (hjson : W.unmarshal doc = some jsonDoc) (huse : W.Use col = some dbcol)
    (hins : dbcol.Insert jsonDoc = Except.ok id)
    (hrun : Insert W CSDir fs r = Except.ok (resp, fs')) (hok : resp.status = 201)
    (hf : r.file = some h) (hjpeg : h.ContentType.head? = some "image/jpeg".toList) :
    ∃ (p : GoString) (img : Img) (n : Nat) (tail : Bytes),
      getPathToID CSDir id col = Except.ok p ∧ W.jpegDecode h.data = some (img, n) ∧
      fs'.readFile (p ++ Ext h.Filename) =
        some ((if h.onDisk then [] else h.data.drop n) ++ tail) := by
  rw [Insert_eval W CSDir col doc id fs r jsonDoc dbcol hrc hrd hjson huse hins] at hrun
  cases hsv : SaveDocument CSDir fs id col ".json".toList doc with
  | error e => rw [hsv] at hrun; simp at hrun
  | ok fs1 =>
    rw [hsv, hf] at hrun
    simp only at hrun
    have hl := SaveDocument_ok_length CSDir col _ doc id fs fs1 hsv
    obtain ⟨ct, rest, filemeta, fs2, fs3, fs4, st, hct, _, hprev, _, _, hfs', _⟩ :=
      insertFile_created W CSDir col id _ resp fs1 fs' h hl status_plainHeaders hrun hok
    have hj : ct = "image/jpeg".toList := by
      rw [hct] at hjpeg
      simpa using hjpeg
    rw [if_pos hj] at hprev
    obtain ⟨img, n, hdec, hst, _, _, _⟩ := CreatePreview_ok W CSDir col id fs1 fs2 _ st hl hprev
    rw [unread_fresh] at hdec
    refine ⟨docPath CSDir id col, img, n,
      ((fs4.readFile (docPath CSDir id col ++ Ext h.Filename)).getD []).drop st.unread.length,
      getPathToID_of_length CSDir col id hl, hdec, ?_⟩
    rw [hfs', readFile_writeAt0_same, hst]
    simp [Stream.unread]

/-- C5: the insert of a 4096-byte JPEG as `photo.jpg`, declared `image/jpeg`,
succeeds with status 201 and leaves an attachment file `1234.jpg` of zero
bytes, which `CSGet` with `type=jpg` returns: `CreatePreview` has read the
upload stream to its end before `Insert` copies the stream into the file. -/
theorem jpeg_attachment_is_empty :
    jpeg4096.length = 4096 ∧
    Except.map (fun x => (x.1.status, x.2.readFile "cs/notes/12/34/1234.jpg".toList))
        (Insert demoWorld "cs".toList FS.empty
          (uploadRequest "notes" "photo.jpg" "image/jpeg" jpeg4096)) =
      Except.ok (201, some []) ∧
    (Insert demoWorld "cs".toList FS.empty
        (uploadRequest "notes" "photo.jpg" "image/jpeg" jpeg4096) >>= fun x =>
      Except.map (fun w => (w.status, w.body))
        (CSGet requireForm "cs".toList x.2 (csRequest "1234" "notes" "jpg"))) =
      Except.ok (200, []) := by
  decide!

/-- C6: an upload named `notes.json` is copied over the body file: after the
successful insert of `{"text":"hi"}` with the two-byte upload `XY` the body
file starts with `XY`; an upload named `a.meta` is copied over the metadata
file in the same way. -/
theorem attachment_overwrites_body :
    Except.map
        (fun x => (x.1.status, x.2.readFile "cs/notes/12/34/1234.json".toList))
        (Insert demoWorld "cs".toList FS.empty
          (uploadRequest "notes" "notes.json" "text/plain" [0x58, 0x59])) =
      Except.ok (201, some (utf8 "XYtext\":\"hi\"\x7d".toList)) ∧
    utf8 "XYtext\":\"hi\"\x7d".toList ≠ utf8 "\x7b\"text\":\"hi\"\x7d".toList ∧
    Except.map
        (fun x => (x.1.status, x.2.readFile "cs/notes/12/34/1234.meta".toList))
        (Insert demoWorld "cs".toList FS.empty
          (uploadRequest "notes" "a.meta" "text/plain" [0x58, 0x59])) =
      Except.ok (201, some (utf8
        "XYid\":1234,\"filename\":\"a.meta\",\"size\":2,\"filetype\":\"text/plain\"\x7d".toList)) := by
  decide!

/-- On a successful `Insert` of a file whose extension is `.json` and whose
declared content type is not `image/jpeg`, the upload is copied over the start
of the body file: the file holds the bytes of the upload followed by what the
JSON text has beyond their length. -/
theorem json_upload_overwrites_body {Doc Img : Type} (W : World Doc Img)
    (CSDir col doc : GoString) (id : Int) (fs fs' : FS) (r : Request) (resp : Response)
    (jsonDoc : Doc) (dbcol : Collection Doc) (h : Upload)
    (hrc : W.Require (plainHeaders Response.empty) r "col".toList = Except.ok col)
    (hrd : requestDoc W.Require (plainHeaders Response.empty) r = Except.ok doc)
    (hjson : W.unmarshal doc = some jsonDoc) (huse : W.Use col = some dbcol)
    (hins : dbcol.Insert jsonDoc = Except.ok id)
    (hrun : Insert W CSDir fs r = Except.ok (resp, fs')) (hok : resp.status = 201)
    (hf : r.file = some h) (hext : Ext h.Filename = ".json".toList)
    (hct : h.ContentType.head? ≠ some "image/jpeg".toList) :
    ∃ p : GoString, getPathToID CSDir id col = Except.ok p ∧
      fs'.readFile (p ++ ".json".toList) =
        some (h.data ++ (utf8 doc).drop h.data.length) := by
  rw [Insert_eval W CSDir col doc id fs r jsonDoc dbcol hrc hrd hjson huse hins] at hrun
  cases hsv : SaveDocument CSDir fs id col ".json".toList doc with
  | error e => rw [hsv] at hrun; simp at hrun
  | ok fs1 =>
    rw [hsv, hf] at hrun
    simp only at hrun
    have hl := SaveDocument_ok_length CSDir col _ doc id fs fs1 hsv
    obtain ⟨fsa, _, _, _, _, _, hfs1⟩ := SaveDocument_ok_inv CSDir col _ doc id fs fs1 hsv
    obtain ⟨ct, rest, filemeta, fs2, fs3, fs4, st, hcts, _, hprev, hmeta, hop, hfs', _⟩ :=
      insertFile_created W CSDir col id _ resp fs1 fs' h hl status_plainHeaders hrun hok
    have hj : ct ≠ "image/jpeg".toList := by
      intro hj
      apply hct
      rw [hcts, hj]
      rfl
    rw [if_neg hj] at hprev
    simp only [Except.ok.injEq, Prod.mk.injEq] at hprev
    rw [hext] at hop hfs'
    obtain ⟨_, _, _, hkeep⟩ := OpenFile_some fs3 fs4 _ hop
    have h3 : fs3.readFile (docPath CSDir id col ++ ".json".toList) = some (utf8 doc) := by
      rw [SaveDocument_readFile_ne CSDir col _ filemeta id fs2 fs3 hmeta _ (by decide),
        ← hprev.1, hfs1]
      exact readFile_put_same _ _ _
    refine ⟨docPath CSDir id col, getPathToID_of_length CSDir col id hl, ?_⟩
    rw [hfs', readFile_writeAt0_same, hkeep, h3, ← hprev.2, unread_fresh]
    rfl

end Tiedot
